import Mathlib

/-!
# radio-record-cli: the station browsing state machine

A shallow embedding of `internal/ui/tui.go`, `internal/config/config.go` and
`internal/player/mpv.go`.

* Go `int` values (cursor, tab selector, station indices, identifiers, volume) are `Int`;
  none of the modelled arithmetic can leave the 64-bit range on a slice that fits in memory.
* Go strings are `String`; the model covers well-formed (UTF-8) text.
  `highlightMatch`, which slices by byte offsets, works on the UTF-8 bytes (`utf8`).
* An out-of-range slice access (a Go panic) is `none` in `Option`.
* What the program obtains from its runtime is collected in `Env`: the order in which `range`
  visits the keys of a map, `strings.ToLower`, and whether the `mpv` process starts.
-/

namespace RadioRecord

/-! ## Data model (`internal/api/client.go`) -/

/-- Go `api.Genre`. -/
structure Genre where
  ID : Int
  Name : String
  deriving DecidableEq, Repr

/-- Go `api.Station`; the stream and icon fields that the state machine never reads
(`Prefix`, `Stream64`, `Stream128`, `StreamHLS`, `IconFill`) are left out. -/
structure Station where
  ID : Int
  Title : String
  Tooltip : String
  Stream320 : String
  Genres : List Genre
  deriving DecidableEq, Repr

/-- Go `api.Track`. -/
structure Track where
  ID : Int
  Artist : String
  Song : String
  deriving DecidableEq, Repr

/-! ## Preferences (`internal/config/config.go`) -/

/-- Go `config.Config`; `path` only matters to `Save`, which is file output. -/
structure Config where
  Favorites : List Int
  Volume : Int
  deriving DecidableEq, Repr

namespace Config

/-- Go `(*Config).IsFavorite`: linear scan with early return. -/
def IsFavorite (c : Config) (stationID : Int) : Bool :=
  c.Favorites.any (fun id => id == stationID)

/-- Go `(*Config).ToggleFavorite`: remove every occurrence, or append. -/
def ToggleFavorite (c : Config) (stationID : Int) : Config :=
  if c.IsFavorite stationID then
    let newFavs := c.Favorites.foldl
      (fun newFavs id => if id ≠ stationID then newFavs ++ [id] else newFavs) []
    { c with Favorites := newFavs }
  else
    { c with Favorites := c.Favorites ++ [stationID] }

end Config

/-! ## Player (`internal/player/mpv.go`) -/

/-- Go `player.Player`, without the process handle, socket path and mutex. -/
structure Player where
  streamURL : String
  playing : Bool
  volume : Int
  deriving DecidableEq, Repr

namespace Player

/-- Go `player.New`. -/
def New : Player := { streamURL := "", playing := false, volume := 80 }

/-- Go `(*Player).Play`; `started` tells whether `cmd.Start()` succeeded. -/
def Play (p : Player) (url : String) (started : Bool) : Player :=
  let p := { p with streamURL := url }
  if started then { p with playing := true } else p

/-- Go `(*Player).Stop`. -/
def Stop (p : Player) : Player := { p with playing := false }

/-- Go `(*Player).SetVolume`. -/
def SetVolume (p : Player) (vol : Int) : Player :=
  let vol := if vol < 0 then 0 else vol
  let vol := if vol > 100 then 100 else vol
  { p with volume := vol }

/-- Go `(*Player).Volume`. -/
def Volume (p : Player) : Int := p.volume

/-- Go `(*Player).VolumeUp`. -/
def VolumeUp (p : Player) : Player := p.SetVolume (p.Volume + 5)

/-- Go `(*Player).VolumeDown`. -/
def VolumeDown (p : Player) : Player := p.SetVolume (p.Volume - 5)

end Player

/-! ## Runtime environment -/

/-- What the Go runtime and the operating system decide for the program. -/
structure Env where
  /-- Go `strings.ToLower`. -/
  toLower : String → String
  /-- The order in which `for k := range m` visits the keys of a map, given the keys in
  insertion order. The language leaves it unspecified; it only visits every key once. -/
  mapOrder : List String → List String
  mapOrder_perm : ∀ ks, (mapOrder ks).Perm ks
  /-- Whether starting `mpv` for a stream URL succeeds. -/
  mpvStarts : String → Bool

/-! ## Slices and strings -/

/-- Go `xs[i]` for an `int` index: `none` is the out-of-range panic. -/
def index {α : Type} (xs : List α) (i : Int) : Option α :=
  if i < 0 then none else xs[i.toNat]?

/-- Go `len(xs)`. -/
def len {α : Type} (xs : List α) : Int := (xs.length : Int)

/-- Whether `sub` occurs in `cs` as a contiguous block. -/
def containsChars (sub : List Char) : List Char → Bool
  | [] => sub.isEmpty
  | c :: cs => sub.isPrefixOf (c :: cs) || containsChars sub cs

/-- Go `strings.Contains`. -/
def Contains (s substr : String) : Bool := containsChars substr.data s.data

/-! ## The model (`internal/ui/tui.go`) -/

/-- Go `mode`. -/
inductive Mode where
  | modeNormal
  | modeSearch
  | modeHelp
  deriving DecidableEq, Repr

/-- Go `ui.Model`; `player` and `config` are pointers in Go and are held by value here,
`client` has no state. -/
structure Model where
  stations : List Station
  visibleList : List Int
  allGenres : List String
  currentGenre : Int
  filtered : List Int
  cursor : Int
  selected : Int
  player : Player
  config : Config
  nowPlaying : Option Track
  err : Option String
  width : Int
  height : Int
  loading : Bool
  mode : Mode
  searchQuery : String
  matchIndex : Int
  showFavorites : Bool
  deriving DecidableEq, Repr

/-- Go `NewModel`. -/
def NewModel (p : Player) (cfg : Config) : Model :=
  { stations := [], visibleList := [], allGenres := [], currentGenre := -1, filtered := [],
    cursor := 0, selected := -1, player := p, config := cfg, nowPlaying := none, err := none,
    width := 80, height := 24, loading := true, mode := Mode.modeNormal, searchQuery := "",
    matchIndex := 0, showFavorites := false }

/-- Go `genreMap[name] = true` on a map seen as its keys in insertion order. -/
def mapSet (keys : List String) (name : String) : List String :=
  if name ∈ keys then keys else keys ++ [name]

/-- The two nested loops of `extractGenres` that fill `genreMap`. -/
def genreKeys (stations : List Station) : List String :=
  stations.foldl (fun keys s => s.Genres.foldl (fun keys g => mapSet keys g.Name) keys) []

/-- Go `(*Model).extractGenres`: collect the names in a map, then range over the map. -/
def extractGenres (env : Env) (m : Model) : Model :=
  let genreMap := genreKeys m.stations
  { m with allGenres := (env.mapOrder genreMap).foldl (fun all g => all ++ [g]) [] }

/-- One `for i, s := range stations` loop that appends `i` when `keep s` holds; `i` is the
index of the head of the remaining stations. -/
def appendIndices (keep : Station → Bool) : List Station → Int → List Int → List Int
  | [], _, out => out
  | s :: rest, i, out => appendIndices keep rest (i + 1) (if keep s then out ++ [i] else out)

/-- The body of the general loop of `updateVisibleList`: `true` when the station is appended,
`false` when one of the two `continue` statements is taken. -/
def passesFilters (m : Model) (s : Station) : Bool :=
  if m.showFavorites && !m.config.IsFavorite s.ID then false
  else if m.currentGenre ≥ 0 ∧ m.currentGenre < len m.allGenres then
    match index m.allGenres m.currentGenre with
    | some genreName => s.Genres.any (fun g => g.Name == genreName)
    | none => false
  else true

/-- Go `(*Model).updateVisibleList`. -/
def updateVisibleList (m : Model) : Model :=
  let visibleList :=
    if m.currentGenre = -1 ∧ !m.showFavorites then
      let favs := appendIndices (fun s => m.config.IsFavorite s.ID) m.stations 0 []
      appendIndices (fun s => !m.config.IsFavorite s.ID) m.stations 0 favs
    else
      appendIndices (passesFilters m) m.stations 0 []
  { m with visibleList := visibleList,
           cursor := if m.cursor ≥ len visibleList then 0 else m.cursor }

/-- The loop of `doSearch` over the visible list: `m.stations[idx]` panics when `idx` is not
a station index. -/
def searchLoop (env : Env) (stations : List Station) (query : String) :
    List Int → List Int → Option (List Int)
  | [], out => some out
  | idx :: rest, out =>
    match index stations idx with
    | none => none
    | some s =>
      let title := env.toLower s.Title
      let tooltip := env.toLower s.Tooltip
      searchLoop env stations query rest
        (if Contains title query || Contains tooltip query then out ++ [idx] else out)

/-- The cursor loop shared by `doSearch`, `nextMatch` and `prevMatch`:
`for i, idx := range visibleList { if idx == filtered[matchIndex] { cursor = i; break } }`.
The inner result is the new cursor, if the loop assigns one; `filtered[matchIndex]` is
evaluated at every iteration and panics out of range. -/
def seekLoop (filtered : List Int) (matchIndex : Int) : List Int → Int → Option (Option Int)
  | [], _ => some none
  | idx :: rest, i =>
    match index filtered matchIndex with
    | none => none
    | some target =>
      if idx = target then some (some i) else seekLoop filtered matchIndex rest (i + 1)

/-- Store the cursor found by `seekLoop`, or keep the old one. -/
def setCursor (m : Model) : Option Int → Model
  | some i => { m with cursor := i }
  | none => m

/-- Go `(*Model).doSearch`. -/
def doSearch (env : Env) (m : Model) : Option Model :=
  let m := { m with filtered := [] }
  if m.searchQuery = "" then some m
  else
    let query := env.toLower m.searchQuery
    match searchLoop env m.stations query m.visibleList [] with
    | none => none
    | some filtered =>
      let m := { m with filtered := filtered }
      if len m.filtered > 0 then
        let m := { m with matchIndex := 0 }
        (seekLoop m.filtered 0 m.visibleList 0).map (setCursor m)
      else some m

/-- Go `(*Model).nextMatch`. -/
def nextMatch (m : Model) : Option Model :=
  if len m.filtered = 0 then some m
  else
    let m := { m with matchIndex := (m.matchIndex + 1).tmod (len m.filtered) }
    (seekLoop m.filtered m.matchIndex m.visibleList 0).map (setCursor m)

/-- Go `(*Model).prevMatch`. -/
def prevMatch (m : Model) : Option Model :=
  if len m.filtered = 0 then some m
  else
    let m := { m with matchIndex := m.matchIndex - 1 }
    let m := if m.matchIndex < 0 then { m with matchIndex := len m.filtered - 1 } else m
    (seekLoop m.filtered m.matchIndex m.visibleList 0).map (setCursor m)

/-- Go `(*Model).clearSearch`. -/
def clearSearch (m : Model) : Model :=
  { m with searchQuery := "", filtered := [], matchIndex := 0 }

/-- Go `tea.Cmd` values that `Update` returns. -/
inductive Cmd where
  | none
  | quit
  | fetchNowPlaying (stationID : Int)
  | tick
  | batch (cmds : List Cmd)
  deriving Repr

/-- Go `(*Model).playStation`. -/
def playStation (env : Env) (m : Model) (stationIdx : Int) : Model × Cmd :=
  if stationIdx < 0 ∨ stationIdx ≥ len m.stations then (m, Cmd.none)
  else
    match index m.stations stationIdx with
    | none => (m, Cmd.none)
    | some station =>
      ({ m with selected := stationIdx,
                player := m.player.Play station.Stream320 (env.mpvStarts station.Stream320) },
       Cmd.fetchNowPlaying station.ID)

/-- Go `(*Model).getStationAtCursor`. -/
def getStationAtCursor (m : Model) : Int :=
  if m.cursor ≥ 0 ∧ m.cursor < len m.visibleList then
    match index m.visibleList m.cursor with
    | some idx => idx
    | none => -1
  else -1

/-- Messages delivered to `Update`; a key is given by `msg.String()`. -/
inductive Msg where
  | key (s : String)
  | windowSize (width height : Int)
  | stationsLoaded (stations : List Station) (err : Option String)
  | nowPlaying (track : Option Track)
  | tick
  | other

/-- The search-mode `switch` of `Update`. -/
def updateSearchKey (env : Env) (m : Model) (k : String) : Option Model :=
  if k = "enter" then some { m with mode := Mode.modeNormal, searchQuery := "" }
  else if k = "esc" then some (clearSearch { m with mode := Mode.modeNormal })
  else if k = "backspace" then
    if m.searchQuery ≠ "" then
      let runes := m.searchQuery.data
      doSearch env { m with searchQuery := String.mk runes.dropLast }
    else some m
  else if k.length = 1 then doSearch env { m with searchQuery := m.searchQuery ++ k }
  else some m

/-- The loop of the quick-select case: the index of the first station with the given id. -/
def findStationByID (favID : Int) : List Station → Int → Option Int
  | [], _ => Option.none
  | s :: rest, i => if s.ID = favID then some i else findStationByID favID rest (i + 1)

/-- The digit of a quick-select key, `int(msg.String()[0] - '1')`. -/
def quickSelectIndex (k : String) : Option Int :=
  if k = "1" then some 0 else if k = "2" then some 1 else if k = "3" then some 2
  else if k = "4" then some 3 else if k = "5" then some 4 else if k = "6" then some 5
  else if k = "7" then some 6 else if k = "8" then some 7 else if k = "9" then some 8
  else Option.none

/-- Case `"up", "k"`. -/
def keyUp (m : Model) : Model :=
  if m.cursor > 0 then { m with cursor := m.cursor - 1 } else m

/-- Case `"down", "j"`. -/
def keyDown (m : Model) : Model :=
  if m.cursor < len m.visibleList - 1 then { m with cursor := m.cursor + 1 } else m

/-- Case `"G"`. -/
def keyBottom (m : Model) : Model :=
  if len m.visibleList > 0 then { m with cursor := len m.visibleList - 1 } else m

/-- Case `"enter", " "`: `return m, m.playStation(stationIdx)`. The call runs before `m` is
copied into the result, so the returned model carries the new selection. -/
def keyPlay (env : Env) (m : Model) : Model × Cmd :=
  let stationIdx := getStationAtCursor m
  if stationIdx ≥ 0 then playStation env m stationIdx else (m, Cmd.none)

/-- Case `"s"`. -/
def keyStop (m : Model) : Model :=
  { m with player := m.player.Stop, selected := -1, nowPlaying := Option.none }

/-- Case `"tab"`. -/
def keyTab (m : Model) : Model :=
  let m := { m with currentGenre := m.currentGenre + 1 }
  let m := if m.currentGenre ≥ len m.allGenres then { m with currentGenre := -1 } else m
  clearSearch (updateVisibleList m)

/-- Case `"shift+tab"`. -/
def keyShiftTab (m : Model) : Model :=
  let m := { m with currentGenre := m.currentGenre - 1 }
  let m := if m.currentGenre < -1 then { m with currentGenre := len m.allGenres - 1 } else m
  clearSearch (updateVisibleList m)

/-- Case `"f"`; `m.stations[stationIdx]` panics when `stationIdx` is not a station index. -/
def keyToggleFavorite (m : Model) : Option Model :=
  let stationIdx := getStationAtCursor m
  if stationIdx ≥ 0 then
    match index m.stations stationIdx with
    | Option.none => Option.none
    | some station =>
      let m := { m with config := m.config.ToggleFavorite station.ID }
      if m.showFavorites ∨ m.currentGenre = -1 then some (updateVisibleList m) else some m
  else some m

/-- Case `"F"`. -/
def keyFavoritesOnly (m : Model) : Model :=
  clearSearch (updateVisibleList { m with showFavorites := !m.showFavorites })

/-- Case `"0"`. -/
def keyReset (m : Model) : Model :=
  clearSearch (updateVisibleList { m with currentGenre := -1, showFavorites := false })

/-- Case `"1"` to `"9"`, for the digit with index `idx`. -/
def keyQuickSelect (env : Env) (m : Model) (idx : Int) : Option (Model × Cmd) :=
  if idx < len m.config.Favorites then
    match index m.config.Favorites idx with
    | Option.none => Option.none
    | some favID =>
      match findStationByID favID m.stations 0 with
      | some i => some (playStation env m i)
      | Option.none => some (m, Cmd.none)
  else some (m, Cmd.none)

/-- The normal-mode `switch` of `Update`. -/
def updateNormalKey (env : Env) (m : Model) (k : String) : Option (Model × Cmd) :=
  if k = "ctrl+c" ∨ k = "q" then some ({ m with player := m.player.Stop }, Cmd.quit)
  else if k = "/" then some ({ m with mode := Mode.modeSearch, searchQuery := "" }, Cmd.none)
  else if k = "?" then some ({ m with mode := Mode.modeHelp }, Cmd.none)
  else if k = "esc" then some (clearSearch m, Cmd.none)
  else if k = "n" then (nextMatch m).map (fun m => (m, Cmd.none))
  else if k = "N" then (prevMatch m).map (fun m => (m, Cmd.none))
  else if k = "up" ∨ k = "k" then some (keyUp m, Cmd.none)
  else if k = "down" ∨ k = "j" then some (keyDown m, Cmd.none)
  else if k = "g" then some ({ m with cursor := 0 }, Cmd.none)
  else if k = "G" then some (keyBottom m, Cmd.none)
  else if k = "enter" ∨ k = " " then some (keyPlay env m)
  else if k = "s" then some (keyStop m, Cmd.none)
  else if k = "+" ∨ k = "=" then some ({ m with player := m.player.VolumeUp }, Cmd.none)
  else if k = "-" ∨ k = "_" then some ({ m with player := m.player.VolumeDown }, Cmd.none)
  else if k = "tab" then some (keyTab m, Cmd.none)
  else if k = "shift+tab" then some (keyShiftTab m, Cmd.none)
  else if k = "f" then (keyToggleFavorite m).map (fun m => (m, Cmd.none))
  else if k = "F" then some (keyFavoritesOnly m, Cmd.none)
  else if k = "0" then some (keyReset m, Cmd.none)
  else
    match quickSelectIndex k with
    | some idx => keyQuickSelect env m idx
    | Option.none => some (m, Cmd.none)

/-- Go `Model.Update`. -/
def Update (env : Env) (m : Model) : Msg → Option (Model × Cmd)
  | Msg.key k =>
    if m.mode = Mode.modeHelp then some ({ m with mode := Mode.modeNormal }, Cmd.none)
    else if m.mode = Mode.modeSearch then (updateSearchKey env m k).map (fun m => (m, Cmd.none))
    else updateNormalKey env m k
  | Msg.windowSize width height => some ({ m with width := width, height := height }, Cmd.none)
  | Msg.stationsLoaded stations err =>
    let m := { m with loading := false }
    match err with
    | some e => some ({ m with err := some e }, Cmd.none)
    | Option.none =>
      some (updateVisibleList (extractGenres env { m with stations := stations }), Cmd.none)
  | Msg.nowPlaying track => some ({ m with nowPlaying := track }, Cmd.none)
  | Msg.tick =>
    let cmds := [Cmd.tick]
    let cmds :=
      if m.selected ≥ 0 ∧ m.selected < len m.stations then
        match index m.stations m.selected with
        | some s => cmds ++ [Cmd.fetchNowPlaying s.ID]
        | Option.none => cmds
      else cmds
    some (m, Cmd.batch cmds)
  | Msg.other => some (m, Cmd.none)

/-- Run `Update` over a sequence of events, each with the environment it meets; `none` when
some event panics. -/
def run (m : Model) : List (Env × Msg) → Option Model
  | [] => some m
  | (env, msg) :: rest =>
    match Update env m msg with
    | Option.none => Option.none
    | some (m, _) => run m rest

/-! ## Specification-side definitions and example states -/

/-- The indices of the stations that satisfy `keep`, in increasing catalog order. -/
def stationIndices (keep : Station → Bool) (stations : List Station) : List Int :=
  (stations.enum.filter (fun p => keep p.2)).map (fun p => (p.1 : Int))

/-- An environment for the examples: ASCII lower-casing, map keys visited in insertion order,
`mpv` starts. -/
def exampleEnv : Env :=
  { toLower := fun s => String.mk (s.data.map Char.toLower)
    mapOrder := id
    mapOrder_perm := fun ks => List.Perm.refl ks
    mpvStarts := fun _ => true }

/-- A station for the examples. -/
def exampleStation (id : Int) (title : String) (genres : List String) : Station :=
  { ID := id, Title := title, Tooltip := "", Stream320 := "", Genres := genres.map (Genre.mk 0) }

/-- The catalog `[A, B, C, D]` with identifiers 1 to 4. -/
def fourStations : List Station :=
  [exampleStation 1 "A" ["Techno"], exampleStation 2 "B" ["House"],
   exampleStation 3 "C" ["Techno"], exampleStation 4 "D" []]

/-- The state with catalog `[A(fav), B, C(fav), D]` on the All tab. -/
def pinnedExample : Model :=
  { NewModel Player.New { Favorites := [1, 3], Volume := 80 } with stations := fourStations }

/-- The same catalog on the first genre tab with the favorites-only flag set. -/
def genreTabExample : Model :=
  { pinnedExample with allGenres := ["Techno", "House"], currentGenre := 0,
                       showFavorites := true }

/-- A five-row visible list with the cursor on the last row, about to be rebuilt for a genre
tab that keeps three stations. -/
def snapExample : Model :=
  { NewModel Player.New { Favorites := [], Volume := 80 } with
    stations := [exampleStation 1 "A" ["Techno"], exampleStation 2 "B" ["House"],
                 exampleStation 3 "C" ["Techno"], exampleStation 4 "D" ["House"],
                 exampleStation 5 "E" ["Techno"]],
    visibleList := [0, 1, 2, 3, 4], allGenres := ["Techno", "House"], currentGenre := 0,
    cursor := 4 }

/-- The genre names of a catalog as they are encountered: stations in catalog order, each
station's genres in order. -/
def genreNamesInOrder (stations : List Station) : List String :=
  stations.flatMap (fun s => s.Genres.map Genre.Name)

/-- The distinct entries of a list, each at the place of its first occurrence. -/
def keepFirst : List String → List String
  | [] => []
  | n :: rest => n :: (keepFirst rest).filter (fun x => x ≠ n)

/-- First-seen tab order: the distinct genre names in the order of first encounter. -/
def firstSeenNames (stations : List Station) : List String :=
  keepFirst (genreNamesInOrder stations)

/-- An environment whose map iteration visits the keys in reverse insertion order. -/
def reversedOrderEnv : Env :=
  { exampleEnv with mapOrder := List.reverse, mapOrder_perm := fun ks => List.reverse_perm ks }

/-- The catalog with genres `[Techno]`, `[House]`, `[Techno]`. -/
def technoHouseExample : Model :=
  { NewModel Player.New { Favorites := [], Volume := 80 } with
    stations := [exampleStation 1 "A" ["Techno"], exampleStation 2 "B" ["House"],
                 exampleStation 3 "C" ["Techno"]] }

/-- The station at catalog index `idx` has a title or a tooltip that contains the query as a
case-insensitive substring: after lower-casing both, the query is a contiguous block of the
text. -/
def matchesQuery (env : Env) (stations : List Station) (q : String) (idx : Int) : Prop :=
  ∃ s, index stations idx = some s ∧
    ((env.toLower q).data <:+: (env.toLower s.Title).data ∨
     (env.toLower q).data <:+: (env.toLower s.Tooltip).data)

/-- The test `doSearch` applies to the station at `idx`. -/
def matchesAt (env : Env) (stations : List Station) (q : String) (idx : Int) : Bool :=
  match index stations idx with
  | some s => Contains (env.toLower s.Title) (env.toLower q) ||
      Contains (env.toLower s.Tooltip) (env.toLower q)
  | none => false

/-- The catalog `[Rock FM, Jazz, Hard Rock]`. -/
def rockStations : List Station :=
  [{ ID := 1, Title := "Rock FM", Tooltip := "Guitars", Stream320 := "", Genres := [] },
   { ID := 2, Title := "Jazz", Tooltip := "Smooth", Stream320 := "", Genres := [] },
   { ID := 3, Title := "Hard Rock", Tooltip := "Loud", Stream320 := "", Genres := [] }]

/-- A visible list that leaves out the station titled "Jazz", with the query "Jazz". -/
def hiddenTitleExample : Model :=
  { NewModel Player.New { Favorites := [], Volume := 80 } with
    stations := rockStations, visibleList := [0, 2], mode := Mode.modeSearch,
    searchQuery := "Jazz" }

/-- The All tab with the second station a favorite, with the query "ROCK" and the cursor on
the last row. -/
def rockSearchExample : Model :=
  { NewModel Player.New { Favorites := [2], Volume := 80 } with
    stations := rockStations, visibleList := [1, 0, 2], cursor := 2, matchIndex := 1,
    mode := Mode.modeSearch, searchQuery := "ROCK" }

/-- Apply an operation `k` times in a row; `none` when one of the calls panics. -/
def repeatOp (f : Model → Option Model) : Nat → Model → Option Model
  | 0, m => some m
  | k + 1, m => (f m).bind (repeatOp f k)

/-- A state with three matches and the match pointer on the first. -/
def threeMatchesExample : Model :=
  { NewModel Player.New { Favorites := [], Volume := 80 } with
    stations := fourStations, visibleList := [0, 1, 2, 3], filtered := [0, 2, 3] }

/-- The state invariant of the event loop: the visible list is the one a rebuild would
produce, the cursor is a row of it (or 0 when it is empty), and the match pointer is a
position of the match list when there are matches. -/
structure Inv (m : Model) : Prop where
  visible : m.visibleList = (updateVisibleList m).visibleList
  cursor :
    0 ≤ m.cursor ∧ (m.cursor < len m.visibleList ∨ (m.visibleList = [] ∧ m.cursor = 0))
  pointer : m.filtered ≠ [] → 0 ≤ m.matchIndex ∧ m.matchIndex < len m.filtered

/-- Key presses as events, each with the environment it meets. -/
def keyEvents (keys : List (Env × String)) : List (Env × Msg) :=
  keys.map (fun ek => (ek.1, Msg.key ek.2))

/-- Key presses as events in the example environment. -/
def exampleKeys (keys : List String) : List (Env × String) :=
  keys.map (fun k => (exampleEnv, k))

/-- The start state of the examples: no favorites. -/
def startExample : Model := NewModel Player.New { Favorites := [], Volume := 80 }

/-- The start state of the examples with the first station of `rockStations` a favorite. -/
def startWithFavorite : Model := NewModel Player.New { Favorites := [1], Volume := 80 }

/-- A state whose cursor is on the first of three matches in a five-row visible list. -/
def cyclingExample : Model :=
  { NewModel Player.New { Favorites := [], Volume := 80 } with
    stations := fourStations, visibleList := [3, 0, 2, 1], filtered := [3, 2, 1], cursor := 0 }

/-- A state in search mode with the query "rock", two matches and the cursor on the first. -/
def pendingCommitExample : Model :=
  { NewModel Player.New { Favorites := [2], Volume := 80 } with
    stations := rockStations, visibleList := [1, 0, 2], filtered := [0, 2], cursor := 1,
    selected := 2, mode := Mode.modeSearch, searchQuery := "rock" }

/-- A state in normal mode on the last of two genre tabs, with a search still active. -/
def lastTabExample : Model :=
  { NewModel Player.New { Favorites := [], Volume := 80 } with
    stations := fourStations, visibleList := [1], allGenres := ["Techno", "House"],
    currentGenre := 1, filtered := [1], searchQuery := "b" }

/-- The same catalog on the All tab. -/
def allTabExample : Model :=
  { lastTabExample with visibleList := [0, 1, 2, 3], currentGenre := -1, filtered := [],
                        searchQuery := "" }

/-- The UTF-8 encoding of one character, as byte values. -/
def utf8Char (c : Char) : List Nat :=
  let n := c.toNat
  if n < 0x80 then [n]
  else if n < 0x800 then [0xC0 + n / 0x40, 0x80 + n % 0x40]
  else if n < 0x10000 then [0xE0 + n / 0x1000, 0x80 + n / 0x40 % 0x40, 0x80 + n % 0x40]
  else [0xF0 + n / 0x40000, 0x80 + n / 0x1000 % 0x40, 0x80 + n / 0x40 % 0x40, 0x80 + n % 0x40]

/-- The bytes of a Go string holding well-formed text. -/
def utf8 (s : String) : List Nat :=
  s.data.flatMap utf8Char

/-- A state in search mode with the Cyrillic query "ро". -/
def cyrillicQueryExample : Model :=
  { NewModel Player.New { Favorites := [], Volume := 80 } with
    stations := rockStations, visibleList := [0, 1, 2], mode := Mode.modeSearch,
    searchQuery := "ро" }

/-- A catalog whose identifiers differ from the positions, with favorites `[7, 3, 9]`. -/
def quickSelectExample : Model :=
  { NewModel Player.New { Favorites := [7, 3, 9], Volume := 80 } with
    stations :=
      [{ ID := 9, Title := "Nine", Tooltip := "", Stream320 := "nine.mp3", Genres := [] },
       { ID := 5, Title := "Five", Tooltip := "", Stream320 := "five.mp3", Genres := [] },
       { ID := 3, Title := "Three", Tooltip := "", Stream320 := "three.mp3", Genres := [] },
       { ID := 7, Title := "Seven", Tooltip := "", Stream320 := "seven.mp3", Genres := [] }],
    visibleList := [3, 0, 1, 2], cursor := 1 }

/-- Go `(*Model).listHeight`. -/
def listHeight (m : Model) : Int :=
  let reserved := if m.selected < 0 ∨ m.nowPlaying = none then 7 else 14
  let h := m.height - reserved
  if h < 5 then 5 else h

/-- The track that `View` renders in its NOW PLAYING section: none on the loading, error and
help screens, and otherwise guarded by `m.selected >= 0 && m.nowPlaying != nil`. -/
def viewNowPlaying (m : Model) : Option Track :=
  if m.loading then none
  else if m.err ≠ none then none
  else if m.mode = Mode.modeHelp then none
  else if m.selected ≥ 0 ∧ m.nowPlaying ≠ none then m.nowPlaying
  else none

/-- A now-playing result for a station that has been stopped in the meantime. -/
def staleTrack : Track := { ID := 42, Artist := "Artist", Song := "Song" }

/-- A state in which playback has been stopped: no selection, no track. -/
def stoppedExample : Model :=
  { NewModel Player.New { Favorites := [], Volume := 80 } with
    stations := rockStations, visibleList := [0, 1, 2], loading := false }

/-- The configuration of `TestToggleFavorite`: favorites `[1, 2]`. -/
def testConfig : Config := { Favorites := [1, 2], Volume := 80 }

/-! ## `highlightMatch` on bytes (`internal/ui/tui.go`) -/

/-- The outcome of a loop run with a bound on its iterations. -/
inductive Outcome (α : Type) where
  | done (value : α)
  | panic
  | outOfFuel
  deriving DecidableEq, Repr

/-- Go `s[lo:hi]` on the bytes of a string; `none` is the out-of-range panic. -/
def slice (s : List Nat) (lo hi : Int) : Option (List Nat) :=
  if 0 ≤ lo ∧ lo ≤ hi ∧ hi ≤ len s then some ((s.drop lo.toNat).take (hi - lo).toNat)
  else none

/-- The scan of `strings.Index`: `i` is the offset of the bytes that remain. -/
def indexFrom (substr : List Nat) : List Nat → Int → Int
  | [], i => if substr.isEmpty then i else -1
  | b :: rest, i =>
    if substr.isPrefixOf (b :: rest) then i else indexFrom substr rest (i + 1)

/-- Go `strings.Index` on bytes: the offset of the first occurrence, or -1. -/
def Index (s substr : List Nat) : Int := indexFrom substr s 0

/-- What `highlightMatch` writes to its builder: text as it is, or text passed through
`hlStyle.Render`. -/
inductive Piece where
  | plain (text : List Nat)
  | styled (text : List Nat)
  deriving DecidableEq, Repr

/-- The `for` loop of `highlightMatch`, run for at most `fuel` iterations. -/
def highlightLoop (text textLower queryLower : List Nat) (queryLen : Int) :
    Nat → Int → List Piece → Outcome (List Piece)
  | 0, _, _ => Outcome.outOfFuel
  | fuel + 1, lastEnd, result =>
    match slice textLower lastEnd (len textLower) with
    | none => Outcome.panic
    | some rest =>
      let idx := Index rest queryLower
      if idx = -1 then
        match slice text lastEnd (len text) with
        | none => Outcome.panic
        | some tail => Outcome.done (result ++ [Piece.plain tail])
      else
        let start := lastEnd + idx
        let stop := start + queryLen
        match slice text lastEnd start with
        | none => Outcome.panic
        | some before =>
          match slice text start stop with
          | none => Outcome.panic
          | some hit =>
            highlightLoop text textLower queryLower queryLen fuel stop
              (result ++ [Piece.plain before, Piece.styled hit])

/-- Go `highlightMatch` up to the styling: the pieces written to the builder. Every
iteration but the last moves `lastEnd` forward, and an iteration that starts with `lastEnd`
past the end of `textLower` panics, so two more iterations than `textLower` has bytes are
enough (`highlightPieces_ne_outOfFuel`). -/
def highlightPieces (env : Env) (text query : String) : Outcome (List Piece) :=
  if query = "" then Outcome.done [Piece.plain (utf8 text)]
  else
    let textLower := utf8 (env.toLower text)
    let queryLower := utf8 (env.toLower query)
    highlightLoop (utf8 text) textLower queryLower (len (utf8 query)) (textLower.length + 2) 0 []

/-- The string built from the pieces, `render` standing for `hlStyle.Render`. -/
def renderPieces (render : List Nat → List Nat) : List Piece → List Nat
  | [] => []
  | Piece.plain t :: rest => t ++ renderPieces render rest
  | Piece.styled t :: rest => render t ++ renderPieces render rest

/-- Go `highlightMatch`. -/
def highlightMatch (env : Env) (render : List Nat → List Nat) (text query : String) :
    Outcome (List Nat) :=
  match highlightPieces env text query with
  | Outcome.done pieces => Outcome.done (renderPieces render pieces)
  | Outcome.panic => Outcome.panic
  | Outcome.outOfFuel => Outcome.outOfFuel

/-- Go `unicode.ToLower` on the characters of the examples: ASCII letters, U+0130 (capital I
with dot above, which becomes `i`), U+212A (Kelvin sign, which becomes `k`) and U+023A
(capital A with stroke, which becomes U+2C65). -/
def goLowerChar (c : Char) : Char :=
  if c = '\u0130' then 'i'
  else if c = '\u212A' then 'k'
  else if c = '\u023A' then '\u2C65'
  else c.toLower

/-- The example environment with `goLowerChar` as lower-casing. -/
def goLowerEnv : Env :=
  { exampleEnv with toLower := fun s => String.mk (s.data.map goLowerChar) }

/-- A favorites list that holds the same identifier twice, as a hand-edited configuration
file can. -/
def duplicateConfig : Config := { Favorites := [2, 2], Volume := 80 }

/-- A state showing the help overlay over a running search and a playing station. -/
def helpExample : Model :=
  { NewModel Player.New { Favorites := [2], Volume := 80 } with
    stations := rockStations, visibleList := [1, 0, 2], filtered := [0, 2], cursor := 1,
    selected := 2, mode := Mode.modeHelp, searchQuery := "rock", loading := false }

/-- A state in search mode on a genre tab with a playing station and an empty query. -/
def searchModeExample : Model :=
  { NewModel Player.New { Favorites := [2], Volume := 80 } with
    stations := rockStations, visibleList := [1, 0, 2], cursor := 1, selected := 2,
    mode := Mode.modeSearch, loading := false }

/-- A state in normal mode with three rows, the cursor on the last one and station 1
playing. -/
def navigationExample : Model :=
  { NewModel Player.New { Favorites := [2], Volume := 80 } with
    stations := rockStations, visibleList := [1, 0, 2], cursor := 2, selected := 1,
    loading := false }

/-- The keys of C25 that act in normal mode: navigation, play, toggle favorite and match
cycling. -/
def emptyListKeys : List String :=
  ["up", "k", "down", "j", "g", "G", "enter", " ", "f", "n", "N"]

/-- The state after an empty catalog has been loaded. -/
def emptyCatalogExample : Model :=
  { NewModel Player.New { Favorites := [], Volume := 80 } with loading := false }

/-- A volume request made to the player. -/
inductive VolumeOp where
  | set (vol : Int)
  | up
  | down

/-- Carry out a volume request with `SetVolume`, `VolumeUp` or `VolumeDown`. -/
def applyVolumeOp (p : Player) : VolumeOp → Player
  | VolumeOp.set vol => p.SetVolume vol
  | VolumeOp.up => p.VolumeUp
  | VolumeOp.down => p.VolumeDown

/-- A catalog in which the name "House" comes with two different genre identifiers. -/
def sameNameExample : Model :=
  { NewModel Player.New { Favorites := [], Volume := 80 } with
    stations :=
      [{ ID := 1, Title := "A", Tooltip := "", Stream320 := "",
         Genres := [{ ID := 10, Name := "House" }, { ID := 11, Name := "Techno" }] },
       { ID := 2, Title := "B", Tooltip := "", Stream320 := "",
         Genres := [{ ID := 20, Name := "House" }] }] }

/-- Go `(*Model).isMatch`. -/
def isMatch (m : Model) (stationIdx : Int) : Bool :=
  m.filtered.any (fun i => i == stationIdx)

/-- The title of a row as `View` prepares it: passed through `highlightMatch` when a query is
set and the station is a match, and taken as it is otherwise. -/
def viewTitle (env : Env) (render : List Nat → List Nat) (m : Model) (station : Station)
    (stationIdx : Int) : Outcome (List Nat) :=
  if m.searchQuery ≠ "" ∧ isMatch m stationIdx = true then
    highlightMatch env render station.Title m.searchQuery
  else Outcome.done (utf8 station.Title)

/-- A station titled "Taxi". -/
def taxiStation : Station :=
  { ID := 1, Title := "Taxi", Tooltip := "", Stream320 := "", Genres := [] }

/-- A station whose title starts with U+023A, a letter whose lower case is one byte
longer. -/
def strokeStation : Station :=
  { ID := 2, Title := "\u023A FM", Tooltip := "", Stream320 := "", Genres := [] }

/-- The start state of the examples with the first and the last station of `rockStations`
favorites. -/
def startWithTwoFavorites : Model :=
  NewModel Player.New { Favorites := [1, 3], Volume := 80 }

/-! ## Lemmas -/

theorem appendIndices_enumFrom (keep : Station → Bool) (l : List Station) (k : Nat)
    (out : List Int) :
    appendIndices keep l (k : Int) out =
      out ++ ((l.enumFrom k).filter (fun p => keep p.2)).map (fun p => (p.1 : Int)) := by
  induction l generalizing k out with
  | nil => simp [appendIndices]
  | cons s rest ih =>
    have h := ih (k + 1) (if keep s then out ++ [(k : Int)] else out)
    simp only [Nat.cast_add, Nat.cast_one] at h
    simp only [appendIndices, h, List.enumFrom_cons, List.filter_cons]
    by_cases hk : keep s = true <;> simp [hk]

theorem appendIndices_eq (keep : Station → Bool) (l : List Station) (out : List Int) :
    appendIndices keep l 0 out = out ++ stationIndices keep l := by
  have h := appendIndices_enumFrom keep l 0 out
  simpa [stationIndices, List.enum] using h

theorem index_eq_some_iff {α : Type} (xs : List α) (i : Int) (x : α) :
    index xs i = some x ↔ ∃ n : Nat, i = (n : Int) ∧ xs[n]? = some x := by
  unfold index
  constructor
  · intro h
    by_cases hi : i < 0
    · simp [hi] at h
    · simp only [hi, if_false] at h
      exact ⟨i.toNat, (Int.toNat_of_nonneg (not_lt.mp hi)).symm, h⟩
  · rintro ⟨n, rfl, h⟩
    simpa using h

theorem mem_stationIndices (keep : Station → Bool) (l : List Station) (i : Int) :
    i ∈ stationIndices keep l ↔ ∃ s, index l i = some s ∧ keep s = true := by
  simp only [stationIndices, List.mem_map, List.mem_filter, Prod.exists]
  constructor
  · rintro ⟨n, s, ⟨hmem, hk⟩, rfl⟩
    exact ⟨s, (index_eq_some_iff l _ s).2 ⟨n, rfl, List.mk_mem_enum_iff_getElem?.1 hmem⟩,
      hk⟩
  · rintro ⟨s, hidx, hk⟩
    obtain ⟨n, rfl, hn⟩ := (index_eq_some_iff l i s).1 hidx
    exact ⟨n, s, ⟨List.mk_mem_enum_iff_getElem?.2 hn, hk⟩, rfl⟩

theorem stationIndices_pairwise (keep : Station → Bool) (l : List Station) :
    (stationIndices keep l).Pairwise (· < ·) := by
  unfold stationIndices
  have h1 : (l.enum.filter (fun p => keep p.2)).Pairwise (fun a b => a.1 < b.1) := by
    apply List.Pairwise.sublist (List.filter_sublist _)
    have := List.pairwise_lt_range l.length
    rw [← List.enum_map_fst, List.pairwise_map] at this
    exact this
  exact List.Pairwise.map _ (fun a b hab => by exact_mod_cast hab) h1

theorem passesFilters_iff (m : Model) (s : Station) :
    passesFilters m s = true ↔
      (m.showFavorites = true → m.config.IsFavorite s.ID = true) ∧
      (¬ (0 ≤ m.currentGenre ∧ m.currentGenre < len m.allGenres) ∨
        ∃ name, index m.allGenres m.currentGenre = some name ∧
          ∃ g ∈ s.Genres, g.Name = name) := by
  unfold passesFilters
  by_cases hf : m.showFavorites = true <;> by_cases hfav : m.config.IsFavorite s.ID = true <;>
    by_cases ht : (0 ≤ m.currentGenre ∧ m.currentGenre < len m.allGenres) <;>
    simp [hf, hfav, ht] <;>
    (cases hidx : index m.allGenres m.currentGenre <;> simp)

/-- C1: on the All tab with the favorites-only flag off, `updateVisibleList` produces the
indices of all favorite stations in increasing catalog order followed by the indices of all
non-favorite stations in increasing catalog order. -/
theorem updateVisibleList_all_tab_pins_favorites (m : Model) (hTab : m.currentGenre = -1)
    (hOff : m.showFavorites = false) :
    (updateVisibleList m).visibleList =
      stationIndices (fun s => m.config.IsFavorite s.ID) m.stations ++
        stationIndices (fun s => !m.config.IsFavorite s.ID) m.stations := by
  simp [updateVisibleList, hTab, hOff, appendIndices_eq]

/-- C1 at the catalog `[A(fav), B, C(fav), D]`: the visible list is `[0, 2, 1, 3]`. -/
theorem updateVisibleList_all_tab_pins_favorites_witness :
    (updateVisibleList pinnedExample).visibleList = [0, 2, 1, 3] :=
  (updateVisibleList_all_tab_pins_favorites pinnedExample (by decide) (by decide)).trans
    (by decide)

/-- C2: on a genre tab, or with the favorites-only flag set, `updateVisibleList` produces a
strictly increasing list whose members are exactly the indices of the stations that are
favorites when the flag is set and that carry the tab's genre name unless the tab is All. -/
theorem updateVisibleList_filtered_tab (m : Model)
    (hTab : -1 ≤ m.currentGenre ∧ m.currentGenre < len m.allGenres)
    (hGeneral : 0 ≤ m.currentGenre ∨ m.showFavorites = true) :
    (updateVisibleList m).visibleList.Pairwise (· < ·) ∧
    ∀ i : Int, i ∈ (updateVisibleList m).visibleList ↔
      ∃ s, index m.stations i = some s ∧
        (m.showFavorites = true → m.config.IsFavorite s.ID = true) ∧
        (m.currentGenre = -1 ∨
          ∃ name, index m.allGenres m.currentGenre = some name ∧
            ∃ g ∈ s.Genres, g.Name = name) := by
  have hbranch : ¬ (m.currentGenre = -1 ∧ (!m.showFavorites) = true) := by
    rintro ⟨h1, h2⟩
    rcases hGeneral with h | h
    · omega
    · simp [h] at h2
  have hvis : (updateVisibleList m).visibleList = stationIndices (passesFilters m) m.stations := by
    simp only [updateVisibleList, hbranch, if_false, appendIndices_eq, List.nil_append]
  have hall : (¬ (0 ≤ m.currentGenre ∧ m.currentGenre < len m.allGenres)) ↔
      m.currentGenre = -1 := by
    constructor
    · intro h; omega
    · intro h; omega
  rw [hvis]
  refine ⟨stationIndices_pairwise _ _, fun i => ?_⟩
  rw [mem_stationIndices]
  simp only [passesFilters_iff, hall]

/-- C2 at the catalog `[A(fav), B, C(fav), D]` on the Techno tab with the favorites-only flag
set: the visible list is `[0, 2]`. -/
theorem updateVisibleList_filtered_tab_witness :
    (updateVisibleList genreTabExample).visibleList = [0, 2] ∧
    (updateVisibleList genreTabExample).visibleList.Pairwise (· < ·) ∧
    ∀ i : Int, i ∈ (updateVisibleList genreTabExample).visibleList ↔
      ∃ s, index genreTabExample.stations i = some s ∧
        (genreTabExample.showFavorites = true →
          genreTabExample.config.IsFavorite s.ID = true) ∧
        (genreTabExample.currentGenre = -1 ∨
          ∃ name, index genreTabExample.allGenres genreTabExample.currentGenre = some name ∧
            ∃ g ∈ s.Genres, g.Name = name) :=
  ⟨by decide, updateVisibleList_filtered_tab genreTabExample (by decide) (by decide)⟩

/-- C7: after `updateVisibleList` the cursor is 0 when the previous cursor was at or beyond
the length of the new visible list and is unchanged otherwise; a cursor on row 4 of five
rows rebuilt to three rows goes to 0, not to 2. -/
theorem updateVisibleList_cursor_snaps_to_top :
    (∀ m : Model,
      (m.cursor ≥ len (updateVisibleList m).visibleList → (updateVisibleList m).cursor = 0) ∧
      (m.cursor < len (updateVisibleList m).visibleList →
        (updateVisibleList m).cursor = m.cursor)) ∧
    (len snapExample.visibleList = 5 ∧ snapExample.cursor = 4 ∧
      len (updateVisibleList snapExample).visibleList = 3 ∧
      (updateVisibleList snapExample).cursor = 0) := by
  refine ⟨fun m => ⟨fun h => ?_, fun h => ?_⟩, by decide⟩
  · have h2 : (updateVisibleList m).cursor =
        if m.cursor ≥ len (updateVisibleList m).visibleList then 0 else m.cursor := rfl
    rw [h2, if_pos h]
  · have h2 : (updateVisibleList m).cursor =
        if m.cursor ≥ len (updateVisibleList m).visibleList then 0 else m.cursor := rfl
    rw [h2, if_neg (not_le.mpr h)]

theorem foldl_mapSet_eq (names acc : List String) :
    names.foldl mapSet acc = acc ++ (keepFirst names).filter (fun x => x ∉ acc) := by
  induction names generalizing acc with
  | nil => simp [keepFirst]
  | cons n rest ih =>
    rw [List.foldl_cons, ih]
    by_cases hn : n ∈ acc
    · simp only [mapSet, hn, if_true, keepFirst, List.filter_cons, decide_not, decide_True,
        Bool.not_true, Bool.false_eq_true, if_false, List.filter_filter]
      congr 1
      apply List.filter_congr
      intro x _
      by_cases hx : x ∈ acc
      · simp [hx]
      · have : x ≠ n := fun h => hx (h ▸ hn)
        simp [hx, this]
    · simp only [mapSet, hn, if_false, keepFirst, List.filter_cons, decide_not, decide_False,
        Bool.not_false, if_true, List.filter_filter, List.append_assoc, List.singleton_append]
      congr 2
      apply List.filter_congr
      intro x _
      by_cases hx : x ∈ acc <;> by_cases hxn : x = n <;> simp [hx, hxn]

theorem genreKeys_foldl (stations : List Station) (acc : List String) :
    stations.foldl (fun keys s => s.Genres.foldl (fun keys g => mapSet keys g.Name) keys) acc =
      (genreNamesInOrder stations).foldl mapSet acc := by
  induction stations generalizing acc with
  | nil => simp [genreNamesInOrder]
  | cons s rest ih =>
    have hcons : genreNamesInOrder (s :: rest) =
        s.Genres.map Genre.Name ++ genreNamesInOrder rest := by
      simp [genreNamesInOrder]
    rw [List.foldl_cons, ih, hcons, List.foldl_append, List.foldl_map]

theorem genreKeys_eq_firstSeenNames (stations : List Station) :
    genreKeys stations = firstSeenNames stations := by
  unfold genreKeys firstSeenNames
  rw [genreKeys_foldl, foldl_mapSet_eq]
  simp

theorem mem_keepFirst (names : List String) (x : String) :
    x ∈ keepFirst names ↔ x ∈ names := by
  induction names with
  | nil => simp [keepFirst]
  | cons n rest ih =>
    simp only [keepFirst, List.mem_cons, List.mem_filter, ih]
    by_cases hx : x = n <;> simp [hx]

theorem keepFirst_nodup (names : List String) : (keepFirst names).Nodup := by
  induction names with
  | nil => simp [keepFirst]
  | cons n rest ih =>
    simp only [keepFirst, List.nodup_cons, List.mem_filter]
    exact ⟨fun h => by simp at h, ih.filter _⟩

theorem foldl_append_singleton (l acc : List String) :
    l.foldl (fun all g => all ++ [g]) acc = acc ++ l := by
  induction l generalizing acc with
  | nil => simp
  | cons x rest ih => simp [ih]

theorem extractGenres_allGenres (env : Env) (m : Model) :
    (extractGenres env m).allGenres = env.mapOrder (firstSeenNames m.stations) := by
  simp [extractGenres, foldl_append_singleton, genreKeys_eq_firstSeenNames]

/-- C4, as stated, fails: when the map iteration visits the keys in reverse insertion order,
the stations with genres `[Techno]`, `[House]`, `[Techno]` give the tab order
`[House, Techno]`, while first-seen order is `[Techno, House]`. -/
theorem extractGenres_not_first_seen :
    (extractGenres reversedOrderEnv technoHouseExample).allGenres = ["House", "Techno"] ∧
    firstSeenNames technoHouseExample.stations = ["Techno", "House"] ∧
    (extractGenres reversedOrderEnv technoHouseExample).allGenres ≠
      firstSeenNames technoHouseExample.stations := by
  decide

/-- C4, amended: after `extractGenres` the tab list is the first-seen sequence of distinct
genre names rearranged by the order in which the map iteration visits its keys; it is a
permutation of the first-seen sequence and has no duplicates. -/
theorem extractGenres_permutation_of_first_seen (env : Env) (m : Model) :
    (extractGenres env m).allGenres = env.mapOrder (firstSeenNames m.stations) ∧
    (extractGenres env m).allGenres.Perm (firstSeenNames m.stations) ∧
    (extractGenres env m).allGenres.Nodup := by
  rw [extractGenres_allGenres]
  refine ⟨rfl, env.mapOrder_perm _, ?_⟩
  exact (env.mapOrder_perm _).nodup_iff.2 (keepFirst_nodup _)

theorem containsChars_iff (sub cs : List Char) : containsChars sub cs = true ↔ sub <:+: cs := by
  induction cs with
  | nil => simp [containsChars, List.isEmpty_iff]
  | cons c rest ih =>
    simp only [containsChars, Bool.or_eq_true, ih, List.infix_cons_iff,
      List.isPrefixOf_iff_prefix]

theorem matchesAt_iff (env : Env) (stations : List Station) (q : String) (idx : Int) :
    matchesAt env stations q idx = true ↔ matchesQuery env stations q idx := by
  unfold matchesAt matchesQuery
  cases h : index stations idx with
  | none => simp
  | some s => simp [Contains, containsChars_iff]

theorem searchLoop_eq (env : Env) (stations : List Station) (q : String) (vis out : List Int)
    (hvis : ∀ idx ∈ vis, ∃ s, index stations idx = some s) :
    searchLoop env stations (env.toLower q) vis out =
      some (out ++ vis.filter (matchesAt env stations q)) := by
  induction vis generalizing out with
  | nil => simp [searchLoop]
  | cons idx rest ih =>
    obtain ⟨s, hs⟩ := hvis idx (List.mem_cons_self _ _)
    have hrest : ∀ i ∈ rest, ∃ s, index stations i = some s :=
      fun i hi => hvis i (List.mem_cons_of_mem _ hi)
    simp only [searchLoop, hs, ih _ hrest, List.filter_cons, matchesAt]
    by_cases hm : (Contains (env.toLower s.Title) (env.toLower q) ||
        Contains (env.toLower s.Tooltip) (env.toLower q)) = true
    · simp [hm]
    · simp [hm]

theorem seekLoop_found (filtered : List Int) (k t : Int) (vis : List Int) (j : Int)
    (hk : index filtered k = some t) (ht : t ∈ vis) :
    ∃ n : Nat, seekLoop filtered k vis j = some (some (j + n)) ∧ vis[n]? = some t ∧
      ∀ p : Nat, p < n → vis[p]? ≠ some t := by
  induction vis generalizing j with
  | nil => simp at ht
  | cons idx rest ih =>
    by_cases hidx : idx = t
    · exact ⟨0, by simp [seekLoop, hk, hidx], by simp [hidx], by simp⟩
    · have ht2 : t ∈ rest := by
        rcases List.mem_cons.1 ht with h | h
        · exact absurd h.symm hidx
        · exact h
      obtain ⟨n, h1, h2, h3⟩ := ih (j + 1) ht2
      refine ⟨n + 1, ?_, by simpa using h2, ?_⟩
      · simp only [seekLoop, hk, hidx, if_false, h1]
        congr 2
        push_cast
        ring
      · intro p hp
        cases p with
        | zero => simpa using hidx
        | succ p => simpa using h3 p (by omega)

theorem seekLoop_not_found (filtered : List Int) (k t : Int) (vis : List Int) (j : Int)
    (hk : index filtered k = some t) (ht : t ∉ vis) :
    seekLoop filtered k vis j = some none := by
  induction vis generalizing j with
  | nil => simp [seekLoop]
  | cons idx rest ih =>
    have h1 : idx ≠ t := fun h => ht (h ▸ List.mem_cons_self _ _)
    have h2 : t ∉ rest := fun h => ht (List.mem_cons_of_mem _ h)
    simp [seekLoop, hk, h1, ih (j + 1) h2]

theorem index_of_lt {α : Type} (xs : List α) (i : Int) (h0 : 0 ≤ i) (h1 : i < len xs) :
    ∃ x, index xs i = some x := by
  unfold len at h1
  have hlt : i.toNat < xs.length := by omega
  exact ⟨xs[i.toNat], by simp [index, not_lt.mpr h0, List.getElem?_eq_getElem hlt]⟩

theorem index_lt_of_eq_some {α : Type} (xs : List α) (i : Int) (x : α)
    (h : index xs i = some x) : 0 ≤ i ∧ i < len xs := by
  obtain ⟨n, rfl, hn⟩ := (index_eq_some_iff xs i x).1 h
  have := (List.getElem?_eq_some.1 hn).1
  unfold len
  omega

theorem doSearch_empty_query (env : Env) (m : Model) (hq : m.searchQuery = "") :
    doSearch env m = some { m with filtered := [] } := by
  simp [doSearch, hq]

theorem doSearch_eq (env : Env) (m : Model) (hq : m.searchQuery ≠ "")
    (hvis : ∀ idx ∈ m.visibleList, 0 ≤ idx ∧ idx < len m.stations) :
    (m.visibleList.filter (matchesAt env m.stations m.searchQuery) = [] ∧
      doSearch env m = some { m with filtered := [] }) ∨
    (∃ t rest, ∃ n : Nat,
      m.visibleList.filter (matchesAt env m.stations m.searchQuery) = t :: rest ∧
      m.visibleList[n]? = some t ∧ (∀ p : Nat, p < n → m.visibleList[p]? ≠ some t) ∧
      doSearch env m =
        some { m with filtered := t :: rest, matchIndex := 0, cursor := (n : Int) }) := by
  have hloop := searchLoop_eq env m.stations m.searchQuery m.visibleList []
    (fun idx h => index_of_lt m.stations idx (hvis idx h).1 (hvis idx h).2)
  simp only [List.nil_append] at hloop
  cases hF : m.visibleList.filter (matchesAt env m.stations m.searchQuery) with
  | nil =>
    left
    refine ⟨rfl, ?_⟩
    simp [doSearch, hq, hloop, hF, len]
  | cons t rest =>
    right
    have htmem : t ∈ m.visibleList := by
      have : t ∈ m.visibleList.filter (matchesAt env m.stations m.searchQuery) := by
        rw [hF]; exact List.mem_cons_self _ _
      exact (List.mem_filter.1 this).1
    have hk : index (t :: rest) 0 = some t := by simp [index]
    obtain ⟨n, h1, h2, h3⟩ := seekLoop_found (t :: rest) 0 t m.visibleList 0 hk htmem
    refine ⟨t, rest, n, rfl, h2, h3, ?_⟩
    have hlen : len (t :: rest) > 0 := by simp [len]
    simp only [doSearch, hq, if_false, hloop, hF, hlen, if_true, h1, Option.map_some',
      setCursor, zero_add]

/-- C5: for a non-empty query and a visible list of station indices, `doSearch` sets the
match list to the sublist of the visible list, in the visible list's order, of the indices
whose station title or tooltip contains the query case-insensitively; an index outside the
visible list is never a match. -/
theorem doSearch_matches_are_visible_matches (env : Env) (m : Model) (hq : m.searchQuery ≠ "")
    (hvis : ∀ idx ∈ m.visibleList, 0 ≤ idx ∧ idx < len m.stations) :
    ∃ m', doSearch env m = some m' ∧
      m'.filtered = m.visibleList.filter (matchesAt env m.stations m.searchQuery) ∧
      m'.filtered.Sublist m.visibleList ∧
      (∀ idx ∈ m.visibleList,
        idx ∈ m'.filtered ↔ matchesQuery env m.stations m.searchQuery idx) ∧
      (∀ idx, idx ∉ m.visibleList → idx ∉ m'.filtered) := by
  have key : ∃ m', doSearch env m = some m' ∧
      m'.filtered = m.visibleList.filter (matchesAt env m.stations m.searchQuery) := by
    rcases doSearch_eq env m hq hvis with ⟨hF, h⟩ | ⟨t, rest, n, hF, _, _, h⟩
    · exact ⟨_, h, by simp [hF]⟩
    · exact ⟨_, h, by simp [hF]⟩
  obtain ⟨m', h1, h2⟩ := key
  refine ⟨m', h1, h2, ?_, ?_, ?_⟩
  · rw [h2]; exact List.filter_sublist _
  · intro idx hidx
    rw [h2, List.mem_filter, matchesAt_iff]
    exact ⟨fun h => h.2, fun h => ⟨hidx, h⟩⟩
  · intro idx hidx hmem
    rw [h2] at hmem
    exact hidx (List.mem_filter.1 hmem).1

/-- C9: for a non-empty query, when `doSearch` finds a match the match pointer is 0 and the
cursor is the first position of the visible list that holds the first match, so that
`visibleList[cursor] = filtered[0]`; when it finds none the cursor is unchanged. -/
theorem doSearch_cursor_jumps_to_first_match (env : Env) (m : Model)
    (hq : m.searchQuery ≠ "")
    (hvis : ∀ idx ∈ m.visibleList, 0 ≤ idx ∧ idx < len m.stations) :
    ∃ m', doSearch env m = some m' ∧ m'.visibleList = m.visibleList ∧
      (m'.filtered ≠ [] →
        m'.matchIndex = 0 ∧ 0 ≤ m'.cursor ∧
        ∃ t, index m'.filtered 0 = some t ∧ index m'.visibleList m'.cursor = some t ∧
          ∀ j : Int, 0 ≤ j → j < m'.cursor → index m'.visibleList j ≠ some t) ∧
      (m'.filtered = [] → m'.cursor = m.cursor) := by
  rcases doSearch_eq env m hq hvis with ⟨_, h⟩ | ⟨t, rest, n, _, hn, hfirst, h⟩
  · exact ⟨_, h, rfl, fun hne => absurd rfl hne, fun _ => rfl⟩
  · refine ⟨_, h, rfl, fun _ => ⟨rfl, Int.natCast_nonneg n, t, by simp [index], ?_, ?_⟩,
      fun hnil => by simp at hnil⟩
    · exact (index_eq_some_iff _ _ _).2 ⟨n, rfl, hn⟩
    · intro j hj0 hjn hjt
      obtain ⟨p, rfl, hp⟩ := (index_eq_some_iff _ _ _).1 hjt
      have hjn2 : (p : Int) < (n : Int) := hjn
      exact hfirst p (by exact_mod_cast hjn2) hp

/-- C5 at a visible list `[0, 2]` that leaves out the station titled "Jazz": the query
"Jazz" has no match. -/
theorem doSearch_matches_are_visible_matches_witness :
    (doSearch exampleEnv hiddenTitleExample).map Model.filtered = some [] ∧
    ∃ m', doSearch exampleEnv hiddenTitleExample = some m' ∧
      m'.filtered = hiddenTitleExample.visibleList.filter
        (matchesAt exampleEnv hiddenTitleExample.stations hiddenTitleExample.searchQuery) ∧
      m'.filtered.Sublist hiddenTitleExample.visibleList ∧
      (∀ idx ∈ hiddenTitleExample.visibleList,
        idx ∈ m'.filtered ↔
          matchesQuery exampleEnv hiddenTitleExample.stations hiddenTitleExample.searchQuery
            idx) ∧
      (∀ idx, idx ∉ hiddenTitleExample.visibleList → idx ∉ m'.filtered) :=
  ⟨by decide,
   doSearch_matches_are_visible_matches exampleEnv hiddenTitleExample (by decide) (by decide)⟩

/-- C9 at the visible list `[1, 0, 2]` and the query "ROCK": the matches are `[0, 2]` and the
cursor goes to row 1, where station 0 is shown. -/
theorem doSearch_cursor_jumps_to_first_match_witness :
    (doSearch exampleEnv rockSearchExample).map
        (fun m => (m.filtered, m.matchIndex, m.cursor)) = some ([0, 2], 0, 1) ∧
    ∃ m', doSearch exampleEnv rockSearchExample = some m' ∧
      m'.visibleList = rockSearchExample.visibleList ∧
      (m'.filtered ≠ [] →
        m'.matchIndex = 0 ∧ 0 ≤ m'.cursor ∧
        ∃ t, index m'.filtered 0 = some t ∧ index m'.visibleList m'.cursor = some t ∧
          ∀ j : Int, 0 ≤ j → j < m'.cursor → index m'.visibleList j ≠ some t) ∧
      (m'.filtered = [] → m'.cursor = rockSearchExample.cursor) :=
  ⟨by decide,
   doSearch_cursor_jumps_to_first_match exampleEnv rockSearchExample (by decide) (by decide)⟩

theorem seekLoop_total (filtered : List Int) (k t : Int) (vis : List Int)
    (hk : index filtered k = some t) :
    ∃ r, seekLoop filtered k vis 0 = some r ∧
      (∀ c, r = some c → ∃ n : Nat, c = (n : Int) ∧ vis[n]? = some t ∧
        ∀ p : Nat, p < n → vis[p]? ≠ some t) ∧
      (r = none → t ∉ vis) := by
  by_cases ht : t ∈ vis
  · obtain ⟨n, h1, h2, h3⟩ := seekLoop_found filtered k t vis 0 hk ht
    refine ⟨some (0 + n), h1, ?_, by simp⟩
    intro c hc
    exact ⟨n, by simpa using hc.symm, h2, h3⟩
  · exact ⟨none, seekLoop_not_found filtered k t vis 0 hk ht, by simp, fun _ => ht⟩

theorem nextMatch_eq (m : Model)
    (hp : 0 ≤ m.matchIndex ∧ m.matchIndex < len m.filtered) :
    ∃ t r, index m.filtered ((m.matchIndex + 1) % len m.filtered) = some t ∧
      seekLoop m.filtered ((m.matchIndex + 1) % len m.filtered) m.visibleList 0 = some r ∧
      nextMatch m =
        some (setCursor { m with matchIndex := (m.matchIndex + 1) % len m.filtered } r) := by
  have hlen : 0 < len m.filtered := by omega
  have hne : len m.filtered ≠ 0 := by omega
  have hmod : (m.matchIndex + 1).tmod (len m.filtered) = (m.matchIndex + 1) % len m.filtered :=
    Int.tmod_eq_emod (by omega) (by omega)
  obtain ⟨t, ht⟩ := index_of_lt m.filtered ((m.matchIndex + 1) % len m.filtered)
    (Int.emod_nonneg _ hne) (Int.emod_lt_of_pos _ hlen)
  obtain ⟨r, hr, _⟩ := seekLoop_total m.filtered _ t m.visibleList ht
  refine ⟨t, r, ht, hr, ?_⟩
  simp only [nextMatch, hne, if_false, hmod, hr, Option.map_some']

theorem prevMatch_eq (m : Model)
    (hp : 0 ≤ m.matchIndex ∧ m.matchIndex < len m.filtered) :
    ∃ t r, index m.filtered ((m.matchIndex - 1) % len m.filtered) = some t ∧
      seekLoop m.filtered ((m.matchIndex - 1) % len m.filtered) m.visibleList 0 = some r ∧
      prevMatch m =
        some (setCursor { m with matchIndex := (m.matchIndex - 1) % len m.filtered } r) := by
  have hlen : 0 < len m.filtered := by omega
  have hne : len m.filtered ≠ 0 := by omega
  obtain ⟨t, ht⟩ := index_of_lt m.filtered ((m.matchIndex - 1) % len m.filtered)
    (Int.emod_nonneg _ hne) (Int.emod_lt_of_pos _ hlen)
  obtain ⟨r, hr, _⟩ := seekLoop_total m.filtered _ t m.visibleList ht
  refine ⟨t, r, ht, hr, ?_⟩
  by_cases h0 : m.matchIndex - 1 < 0
  · have hval : (m.matchIndex - 1) % len m.filtered = len m.filtered - 1 := by
      have hm : m.matchIndex = 0 := by omega
      rw [hm, ← Int.add_emod_self]
      exact Int.emod_eq_of_lt (by omega) (by omega)
    rw [hval] at hr ⊢
    simp only [prevMatch, hne, if_false, h0, if_true, hr, Option.map_some']
  · have hval : (m.matchIndex - 1) % len m.filtered = m.matchIndex - 1 :=
      Int.emod_eq_of_lt (by omega) (by omega)
    rw [hval] at hr ⊢
    simp only [prevMatch, hne, if_false, h0, hr, Option.map_some']

theorem setCursor_matchIndex (m : Model) (r : Option Int) :
    (setCursor m r).matchIndex = m.matchIndex ∧ (setCursor m r).filtered = m.filtered ∧
    (setCursor m r).visibleList = m.visibleList := by
  cases r <;> simp [setCursor]

theorem repeatOp_nextMatch (k : Nat) (m : Model) (hn : m.filtered ≠ [])
    (hp : 0 ≤ m.matchIndex ∧ m.matchIndex < len m.filtered) :
    ∃ m', repeatOp nextMatch k m = some m' ∧ m'.filtered = m.filtered ∧
      m'.matchIndex = (m.matchIndex + k) % len m.filtered := by
  induction k generalizing m with
  | zero =>
    exact ⟨m, rfl, rfl, by simpa using (Int.emod_eq_of_lt hp.1 hp.2).symm⟩
  | succ k ih =>
    obtain ⟨t, r, _, _, hstep⟩ := nextMatch_eq m hp
    have hlen : 0 < len m.filtered := by omega
    have hne : len m.filtered ≠ 0 := by omega
    obtain ⟨h1, h2, _⟩ :=
      setCursor_matchIndex { m with matchIndex := (m.matchIndex + 1) % len m.filtered } r
    obtain ⟨m', hm', hf, hi⟩ :=
      ih (setCursor { m with matchIndex := (m.matchIndex + 1) % len m.filtered } r)
        (by rw [h2]; exact hn)
        (by rw [h1, h2]; exact ⟨Int.emod_nonneg _ hne, Int.emod_lt_of_pos _ hlen⟩)
    refine ⟨m', by simp [repeatOp, hstep, hm'], by rw [hf, h2], ?_⟩
    rw [hi, h1, h2]
    simp only [Int.emod_add_emod]
    congr 1
    push_cast
    ring

theorem emod_sub_emod_left (a n k : Int) : (a % n - k) % n = (a - k) % n := by
  rw [sub_eq_add_neg, Int.emod_add_emod, ← sub_eq_add_neg]

theorem repeatOp_prevMatch (k : Nat) (m : Model) (hn : m.filtered ≠ [])
    (hp : 0 ≤ m.matchIndex ∧ m.matchIndex < len m.filtered) :
    ∃ m', repeatOp prevMatch k m = some m' ∧ m'.filtered = m.filtered ∧
      m'.matchIndex = (m.matchIndex - k) % len m.filtered := by
  induction k generalizing m with
  | zero =>
    exact ⟨m, rfl, rfl, by simpa using (Int.emod_eq_of_lt hp.1 hp.2).symm⟩
  | succ k ih =>
    obtain ⟨t, r, _, _, hstep⟩ := prevMatch_eq m hp
    have hlen : 0 < len m.filtered := by omega
    have hne : len m.filtered ≠ 0 := by omega
    obtain ⟨h1, h2, _⟩ :=
      setCursor_matchIndex { m with matchIndex := (m.matchIndex - 1) % len m.filtered } r
    obtain ⟨m', hm', hf, hi⟩ :=
      ih (setCursor { m with matchIndex := (m.matchIndex - 1) % len m.filtered } r)
        (by rw [h2]; exact hn)
        (by rw [h1, h2]; exact ⟨Int.emod_nonneg _ hne, Int.emod_lt_of_pos _ hlen⟩)
    refine ⟨m', by simp [repeatOp, hstep, hm'], by rw [hf, h2], ?_⟩
    rw [hi, h1, h2]
    rw [emod_sub_emod_left]
    congr 1
    push_cast
    ring

/-- C10: with `n > 0` matches and the match pointer `p` in `[0, n)`, `nextMatch` sets the
pointer to `(p + 1) mod n` and `prevMatch` sets it to `(p - 1 + n) mod n`, and `n` calls of
either in a row bring the pointer back to `p`. -/
theorem match_cycling_wraps (m : Model) (hn : m.filtered ≠ [])
    (hp : 0 ≤ m.matchIndex ∧ m.matchIndex < len m.filtered) :
    (∃ m', nextMatch m = some m' ∧ m'.filtered = m.filtered ∧
      m'.matchIndex = (m.matchIndex + 1) % len m.filtered) ∧
    (∃ m', prevMatch m = some m' ∧ m'.filtered = m.filtered ∧
      m'.matchIndex = (m.matchIndex - 1 + len m.filtered) % len m.filtered) ∧
    (∃ m', repeatOp nextMatch m.filtered.length m = some m' ∧ m'.filtered = m.filtered ∧
      m'.matchIndex = m.matchIndex) ∧
    (∃ m', repeatOp prevMatch m.filtered.length m = some m' ∧ m'.filtered = m.filtered ∧
      m'.matchIndex = m.matchIndex) := by
  refine ⟨?_, ?_, ?_, ?_⟩
  · obtain ⟨t, r, _, _, h⟩ := nextMatch_eq m hp
    obtain ⟨h1, h2, _⟩ :=
      setCursor_matchIndex { m with matchIndex := (m.matchIndex + 1) % len m.filtered } r
    exact ⟨_, h, h2, h1⟩
  · obtain ⟨t, r, _, _, h⟩ := prevMatch_eq m hp
    obtain ⟨h1, h2, _⟩ :=
      setCursor_matchIndex { m with matchIndex := (m.matchIndex - 1) % len m.filtered } r
    exact ⟨_, h, h2, by rw [h1, Int.add_emod_self]⟩
  · obtain ⟨m', h1, h2, h3⟩ := repeatOp_nextMatch m.filtered.length m hn hp
    refine ⟨m', h1, h2, ?_⟩
    have : ((m.filtered.length : Nat) : Int) = len m.filtered := rfl
    rw [h3, this, Int.add_emod_self]
    exact Int.emod_eq_of_lt hp.1 hp.2
  · obtain ⟨m', h1, h2, h3⟩ := repeatOp_prevMatch m.filtered.length m hn hp
    refine ⟨m', h1, h2, ?_⟩
    have : ((m.filtered.length : Nat) : Int) = len m.filtered := rfl
    rw [h3, this, Int.sub_emod, Int.emod_self, sub_zero, Int.emod_emod]
    exact Int.emod_eq_of_lt hp.1 hp.2

/-- C10 on a three-element match list with the pointer at 0: one `nextMatch` gives 1, one
`prevMatch` gives 2, and three `nextMatch` calls end at 0. -/
theorem match_cycling_wraps_witness :
    ((nextMatch threeMatchesExample).map Model.matchIndex = some 1 ∧
     (prevMatch threeMatchesExample).map Model.matchIndex = some 2 ∧
     (repeatOp nextMatch 3 threeMatchesExample).map Model.matchIndex = some 0) ∧
    ((∃ m', nextMatch threeMatchesExample = some m' ∧
        m'.filtered = threeMatchesExample.filtered ∧
        m'.matchIndex =
          (threeMatchesExample.matchIndex + 1) % len threeMatchesExample.filtered) ∧
     (∃ m', prevMatch threeMatchesExample = some m' ∧
        m'.filtered = threeMatchesExample.filtered ∧
        m'.matchIndex =
          (threeMatchesExample.matchIndex - 1 + len threeMatchesExample.filtered) %
            len threeMatchesExample.filtered) ∧
     (∃ m', repeatOp nextMatch threeMatchesExample.filtered.length threeMatchesExample =
          some m' ∧
        m'.filtered = threeMatchesExample.filtered ∧
        m'.matchIndex = threeMatchesExample.matchIndex) ∧
     (∃ m', repeatOp prevMatch threeMatchesExample.filtered.length threeMatchesExample =
          some m' ∧
        m'.filtered = threeMatchesExample.filtered ∧
        m'.matchIndex = threeMatchesExample.matchIndex)) :=
  ⟨by decide, match_cycling_wraps threeMatchesExample (by decide) (by decide)⟩

theorem passesFilters_congr (m m' : Model) (hc : m'.config = m.config)
    (hg : m'.currentGenre = m.currentGenre) (hf : m'.showFavorites = m.showFavorites)
    (ha : m'.allGenres = m.allGenres) : passesFilters m' = passesFilters m := by
  funext s
  simp only [passesFilters, hc, hg, hf, ha]

theorem updateVisibleList_congr (m m' : Model) (hs : m'.stations = m.stations)
    (hc : m'.config = m.config) (hg : m'.currentGenre = m.currentGenre)
    (hf : m'.showFavorites = m.showFavorites) (ha : m'.allGenres = m.allGenres) :
    (updateVisibleList m').visibleList = (updateVisibleList m).visibleList := by
  simp only [updateVisibleList, passesFilters_congr m m' hc hg hf ha, hs, hc, hg, hf]

theorem updateVisibleList_valid (m : Model) :
    ∀ idx ∈ (updateVisibleList m).visibleList, 0 ≤ idx ∧ idx < len m.stations := by
  intro idx hidx
  have key : ∃ s, index m.stations idx = some s := by
    by_cases hb : m.currentGenre = -1 ∧ (!m.showFavorites) = true
    · simp only [updateVisibleList, hb, and_self, if_true, appendIndices_eq, List.nil_append,
        List.mem_append, mem_stationIndices] at hidx
      rcases hidx with ⟨s, hs, _⟩ | ⟨s, hs, _⟩ <;> exact ⟨s, hs⟩
    · simp only [updateVisibleList, hb, if_false, appendIndices_eq, List.nil_append,
        mem_stationIndices] at hidx
      obtain ⟨s, hs, _⟩ := hidx
      exact ⟨s, hs⟩
  obtain ⟨s, hs⟩ := key
  exact index_lt_of_eq_some _ _ _ hs

theorem Inv.valid {m : Model} (h : Inv m) :
    ∀ idx ∈ m.visibleList, 0 ≤ idx ∧ idx < len m.stations := by
  rw [h.visible]
  exact updateVisibleList_valid m

theorem Inv.of_same {m : Model} (h : Inv m) (m' : Model) (hs : m'.stations = m.stations)
    (hc : m'.config = m.config) (hg : m'.currentGenre = m.currentGenre)
    (hf : m'.showFavorites = m.showFavorites) (ha : m'.allGenres = m.allGenres)
    (hv : m'.visibleList = m.visibleList) (hcur : m'.cursor = m.cursor)
    (hfil : m'.filtered = m.filtered) (hmi : m'.matchIndex = m.matchIndex) : Inv m' where
  visible := by rw [hv, updateVisibleList_congr m m' hs hc hg hf ha]; exact h.visible
  cursor := by rw [hcur, hv]; exact h.cursor
  pointer := by rw [hfil, hmi]; exact h.pointer

theorem Inv.with_cursor {m : Model} (h : Inv m) (c : Int)
    (hc : 0 ≤ c ∧ (c < len m.visibleList ∨ (m.visibleList = [] ∧ c = 0))) :
    Inv { m with cursor := c } where
  visible := (h.visible).trans (updateVisibleList_congr m _ rfl rfl rfl rfl rfl).symm
  cursor := hc
  pointer := h.pointer

theorem Inv.clearSearch {m : Model} (h : Inv m) : Inv (clearSearch m) where
  visible := (h.visible).trans (updateVisibleList_congr m _ rfl rfl rfl rfl rfl).symm
  cursor := h.cursor
  pointer := fun hne => absurd rfl hne

theorem Inv.updateVisibleList (m : Model) (hcur : 0 ≤ m.cursor)
    (hptr : m.filtered ≠ [] → 0 ≤ m.matchIndex ∧ m.matchIndex < len m.filtered) :
    Inv (updateVisibleList m) where
  visible := (updateVisibleList_congr m (RadioRecord.updateVisibleList m) rfl rfl rfl rfl rfl).symm
  cursor := by
    have hc : (RadioRecord.updateVisibleList m).cursor =
        if m.cursor ≥ len (RadioRecord.updateVisibleList m).visibleList then 0
        else m.cursor := rfl
    rw [hc]
    by_cases hge : m.cursor ≥ len (RadioRecord.updateVisibleList m).visibleList
    · rw [if_pos hge]
      refine ⟨le_refl 0, ?_⟩
      cases hl : (RadioRecord.updateVisibleList m).visibleList with
      | nil => exact Or.inr ⟨rfl, rfl⟩
      | cons a l => left; simp [len]
    · rw [if_neg hge]
      exact ⟨hcur, Or.inl (not_le.mp hge)⟩
  pointer := hptr

theorem Inv.setCursor {m : Model} (h : Inv m) (r : Option Int) (t : Int)
    (hr : ∀ c, r = some c → ∃ n : Nat, c = (n : Int) ∧ m.visibleList[n]? = some t ∧
      ∀ p : Nat, p < n → m.visibleList[p]? ≠ some t) : Inv (setCursor m r) := by
  cases r with
  | none => exact h
  | some c =>
    obtain ⟨n, rfl, hn, _⟩ := hr c rfl
    have hlt := (List.getElem?_eq_some.1 hn).1
    exact h.with_cursor (n : Int) ⟨Int.natCast_nonneg n, Or.inl (by unfold len; omega)⟩

theorem Inv.doSearch {m : Model} (h : Inv m) (env : Env) :
    ∃ m', doSearch env m = some m' ∧ Inv m' ∧ m'.stations = m.stations ∧
      m'.allGenres = m.allGenres ∧ m'.currentGenre = m.currentGenre := by
  by_cases hq : m.searchQuery = ""
  · refine ⟨_, doSearch_empty_query env m hq, ?_, rfl, rfl, rfl⟩
    exact { visible := (h.visible).trans (updateVisibleList_congr m _ rfl rfl rfl rfl rfl).symm
            cursor := h.cursor
            pointer := fun hne => absurd rfl hne }
  · rcases doSearch_eq env m hq h.valid with ⟨_, hd⟩ | ⟨t, rest, n, _, hn, _, hd⟩
    · refine ⟨_, hd, ?_, rfl, rfl, rfl⟩
      exact { visible := (h.visible).trans (updateVisibleList_congr m _ rfl rfl rfl rfl rfl).symm
              cursor := h.cursor
              pointer := fun hne => absurd rfl hne }
    · refine ⟨_, hd, ?_, rfl, rfl, rfl⟩
      have hlt := (List.getElem?_eq_some.1 hn).1
      exact { visible := (h.visible).trans (updateVisibleList_congr m _ rfl rfl rfl rfl rfl).symm
              cursor := ⟨Int.natCast_nonneg n,
                Or.inl (by show (n : Int) < len m.visibleList; unfold len; omega)⟩
              pointer := fun _ => ⟨le_refl 0, by show (0 : Int) < len (t :: rest); simp [len]⟩ }

theorem Inv.with_matchIndex {m : Model} (h : Inv m) (k : Int)
    (hk : m.filtered ≠ [] → 0 ≤ k ∧ k < len m.filtered) :
    Inv { m with matchIndex := k } where
  visible := (h.visible).trans (updateVisibleList_congr m _ rfl rfl rfl rfl rfl).symm
  cursor := h.cursor
  pointer := hk

theorem Inv.nextMatch {m : Model} (h : Inv m) :
    ∃ m', nextMatch m = some m' ∧ Inv m' ∧ m'.stations = m.stations ∧
      m'.allGenres = m.allGenres ∧ m'.currentGenre = m.currentGenre := by
  by_cases hf : m.filtered = []
  · exact ⟨m, by simp [RadioRecord.nextMatch, hf, len], h, rfl, rfl, rfl⟩
  · have hp := h.pointer hf
    obtain ⟨t, r, ht, hr, hstep⟩ := nextMatch_eq m hp
    obtain ⟨r', hr', hprop, _⟩ := seekLoop_total m.filtered _ t m.visibleList ht
    have hrr : r = r' := Option.some.inj (hr.symm.trans hr')
    subst hrr
    have hlen : 0 < len m.filtered := by omega
    have hne : len m.filtered ≠ 0 := by omega
    have h1 := h.with_matchIndex ((m.matchIndex + 1) % len m.filtered)
      (fun _ => ⟨Int.emod_nonneg _ hne, Int.emod_lt_of_pos _ hlen⟩)
    refine ⟨_, hstep, h1.setCursor r t hprop, ?_⟩
    cases r <;> exact ⟨rfl, rfl, rfl⟩

theorem Inv.prevMatch {m : Model} (h : Inv m) :
    ∃ m', prevMatch m = some m' ∧ Inv m' ∧ m'.stations = m.stations ∧
      m'.allGenres = m.allGenres ∧ m'.currentGenre = m.currentGenre := by
  by_cases hf : m.filtered = []
  · exact ⟨m, by simp [RadioRecord.prevMatch, hf, len], h, rfl, rfl, rfl⟩
  · have hp := h.pointer hf
    obtain ⟨t, r, ht, hr, hstep⟩ := prevMatch_eq m hp
    obtain ⟨r', hr', hprop, _⟩ := seekLoop_total m.filtered _ t m.visibleList ht
    have hrr : r = r' := Option.some.inj (hr.symm.trans hr')
    subst hrr
    have hlen : 0 < len m.filtered := by omega
    have hne : len m.filtered ≠ 0 := by omega
    have h1 := h.with_matchIndex ((m.matchIndex - 1) % len m.filtered)
      (fun _ => ⟨Int.emod_nonneg _ hne, Int.emod_lt_of_pos _ hlen⟩)
    refine ⟨_, hstep, h1.setCursor r t hprop, ?_⟩
    cases r <;> exact ⟨rfl, rfl, rfl⟩

/-- Keys in search mode keep the invariant, the catalog, the tab list and the tab. -/
theorem Inv.updateSearchKey {m : Model} (h : Inv m) (env : Env) (k : String) :
    ∃ m', updateSearchKey env m k = some m' ∧ Inv m' ∧ m'.stations = m.stations ∧
      m'.allGenres = m.allGenres ∧ m'.currentGenre = m.currentGenre := by
  unfold RadioRecord.updateSearchKey
  split_ifs with h1 h2 h3 h4 h5
  · exact ⟨_, rfl, h.of_same _ rfl rfl rfl rfl rfl rfl rfl rfl rfl, rfl, rfl, rfl⟩
  · exact ⟨_, rfl, (h.of_same { m with mode := Mode.modeNormal }
      rfl rfl rfl rfl rfl rfl rfl rfl rfl).clearSearch, rfl, rfl, rfl⟩
  · exact (h.of_same { m with searchQuery := String.mk m.searchQuery.data.dropLast }
      rfl rfl rfl rfl rfl rfl rfl rfl rfl).doSearch env
  · exact ⟨m, rfl, h, rfl, rfl, rfl⟩
  · exact (h.of_same { m with searchQuery := m.searchQuery ++ k }
      rfl rfl rfl rfl rfl rfl rfl rfl rfl).doSearch env
  · exact ⟨m, rfl, h, rfl, rfl, rfl⟩

theorem playStation_same (env : Env) (m : Model) (i : Int) :
    (playStation env m i).1.stations = m.stations ∧
    (playStation env m i).1.config = m.config ∧
    (playStation env m i).1.currentGenre = m.currentGenre ∧
    (playStation env m i).1.showFavorites = m.showFavorites ∧
    (playStation env m i).1.allGenres = m.allGenres ∧
    (playStation env m i).1.visibleList = m.visibleList ∧
    (playStation env m i).1.cursor = m.cursor ∧
    (playStation env m i).1.filtered = m.filtered ∧
    (playStation env m i).1.matchIndex = m.matchIndex := by
  unfold playStation
  split_ifs
  · simp
  · cases index m.stations i <;> simp

theorem Inv.playStation {m : Model} (h : Inv m) (env : Env) (i : Int) :
    Inv (playStation env m i).1 := by
  obtain ⟨h1, h2, h3, h4, h5, h6, h7, h8, h9⟩ := playStation_same env m i
  exact h.of_same _ h1 h2 h3 h4 h5 h6 h7 h8 h9

theorem getStationAtCursor_valid {m : Model} (h : Inv m) (hge : getStationAtCursor m ≥ 0) :
    ∃ s, index m.stations (getStationAtCursor m) = some s := by
  unfold getStationAtCursor at hge ⊢
  split_ifs at hge ⊢ with hc
  · cases hidx : index m.visibleList m.cursor with
    | none => simp [hidx] at hge
    | some idx =>
      simp only [hidx]
      obtain ⟨n, _, hn⟩ := (index_eq_some_iff _ _ _).1 hidx
      have hmem : idx ∈ m.visibleList := List.mem_iff_getElem?.2 ⟨n, hn⟩
      exact index_of_lt _ _ (h.valid idx hmem).1 (h.valid idx hmem).2
  · omega

theorem updateVisibleList_config_irrelevant (m : Model) (cfg : Config)
    (h : ¬ (m.showFavorites = true ∨ m.currentGenre = -1)) :
    (updateVisibleList { m with config := cfg }).visibleList =
      (updateVisibleList m).visibleList := by
  have hsf : m.showFavorites = false := by
    cases hs : m.showFavorites with
    | false => rfl
    | true => exact absurd (Or.inl hs) h
  have hg : ¬ m.currentGenre = -1 := fun hg => h (Or.inr hg)
  have hp : passesFilters { m with config := cfg } = passesFilters m := by
    funext s
    simp [passesFilters, hsf]
  simp only [updateVisibleList, hp, hg, false_and, if_false]

theorem quickSelectIndex_nonneg (k : String) (idx : Int) (h : quickSelectIndex k = some idx) :
    0 ≤ idx := by
  unfold quickSelectIndex at h
  split_ifs at h <;> simp at h <;> omega

theorem Inv.keyUp {m : Model} (h : Inv m) : Inv (keyUp m) := by
  unfold RadioRecord.keyUp
  split_ifs with hc
  · have := h.cursor
    exact h.with_cursor _ ⟨by omega, Or.inl (by omega)⟩
  · exact h

theorem Inv.keyDown {m : Model} (h : Inv m) : Inv (keyDown m) := by
  unfold RadioRecord.keyDown
  split_ifs with hc
  · have := h.cursor
    exact h.with_cursor _ ⟨by omega, Or.inl (by omega)⟩
  · exact h

theorem Inv.keyTop {m : Model} (h : Inv m) : Inv { m with cursor := 0 } := by
  refine h.with_cursor 0 ⟨le_refl 0, ?_⟩
  cases hv : m.visibleList with
  | nil => exact Or.inr ⟨rfl, rfl⟩
  | cons a l => left; simp [len]

theorem Inv.keyBottom {m : Model} (h : Inv m) : Inv (keyBottom m) := by
  unfold RadioRecord.keyBottom
  split_ifs with hc
  · exact h.with_cursor _ ⟨by omega, Or.inl (by omega)⟩
  · exact h

theorem Inv.keyPlay {m : Model} (h : Inv m) (env : Env) : Inv (keyPlay env m).1 := by
  unfold RadioRecord.keyPlay
  simp only
  split_ifs
  · exact h.playStation env _
  · exact h

theorem keyPlay_same (env : Env) (m : Model) :
    (keyPlay env m).1.stations = m.stations ∧ (keyPlay env m).1.allGenres = m.allGenres ∧
    (keyPlay env m).1.currentGenre = m.currentGenre := by
  unfold keyPlay
  simp only
  split_ifs
  · obtain ⟨h1, _, h3, _, h5, _⟩ := playStation_same env m (getStationAtCursor m)
    exact ⟨h1, h5, h3⟩
  · exact ⟨rfl, rfl, rfl⟩

theorem Inv.rebuild_clear (m : Model) (hcur : 0 ≤ m.cursor) :
    Inv (RadioRecord.clearSearch (RadioRecord.updateVisibleList m)) where
  visible := (updateVisibleList_congr m
    (RadioRecord.clearSearch (RadioRecord.updateVisibleList m)) rfl rfl rfl rfl rfl).symm
  cursor :=
    (Inv.updateVisibleList { m with filtered := [] } hcur (fun hne => absurd rfl hne)).cursor
  pointer := fun hne => absurd rfl hne

theorem Inv.keyTab {m : Model} (h : Inv m) :
    Inv (keyTab m) ∧ (keyTab m).stations = m.stations ∧ (keyTab m).allGenres = m.allGenres ∧
    (-1 ≤ m.currentGenre ∧ m.currentGenre < len m.allGenres →
      -1 ≤ (keyTab m).currentGenre ∧ (keyTab m).currentGenre < len (keyTab m).allGenres) := by
  have hlen : (0 : Int) ≤ len m.allGenres := by unfold len; omega
  unfold RadioRecord.keyTab
  simp only
  split_ifs with hc
  · exact ⟨Inv.rebuild_clear _ h.cursor.1, rfl, rfl,
      fun _ => ⟨le_refl _, by show (-1 : Int) < len m.allGenres; omega⟩⟩
  · refine ⟨Inv.rebuild_clear _ h.cursor.1, rfl, rfl, fun ht => ⟨?_, ?_⟩⟩
    · show -1 ≤ m.currentGenre + 1
      omega
    · show m.currentGenre + 1 < len m.allGenres
      exact not_le.mp hc

theorem Inv.keyShiftTab {m : Model} (h : Inv m) :
    Inv (keyShiftTab m) ∧ (keyShiftTab m).stations = m.stations ∧
    (keyShiftTab m).allGenres = m.allGenres ∧
    (-1 ≤ m.currentGenre ∧ m.currentGenre < len m.allGenres →
      -1 ≤ (keyShiftTab m).currentGenre ∧
        (keyShiftTab m).currentGenre < len (keyShiftTab m).allGenres) := by
  have hlen : (0 : Int) ≤ len m.allGenres := by unfold len; omega
  unfold RadioRecord.keyShiftTab
  simp only
  split_ifs with hc
  · refine ⟨Inv.rebuild_clear _ h.cursor.1, rfl, rfl, fun _ => ⟨?_, ?_⟩⟩
    · show -1 ≤ len m.allGenres - 1
      omega
    · show len m.allGenres - 1 < len m.allGenres
      omega
  · refine ⟨Inv.rebuild_clear _ h.cursor.1, rfl, rfl, fun ht => ⟨?_, ?_⟩⟩
    · show -1 ≤ m.currentGenre - 1
      exact not_lt.mp hc
    · show m.currentGenre - 1 < len m.allGenres
      omega

theorem Inv.keyToggleFavorite {m : Model} (h : Inv m) :
    ∃ m', keyToggleFavorite m = some m' ∧ Inv m' ∧ m'.stations = m.stations ∧
      m'.allGenres = m.allGenres ∧ m'.currentGenre = m.currentGenre := by
  unfold RadioRecord.keyToggleFavorite
  simp only
  by_cases hge : getStationAtCursor m ≥ 0
  · obtain ⟨s, hs⟩ := getStationAtCursor_valid h hge
    simp only [hge, if_true, hs]
    by_cases hre : m.showFavorites = true ∨ m.currentGenre = -1
    · simp only [hre, if_true]
      exact ⟨_, rfl, Inv.updateVisibleList _ h.cursor.1 h.pointer, rfl, rfl, rfl⟩
    · simp only [hre, if_false]
      refine ⟨_, rfl, ?_, rfl, rfl, rfl⟩
      exact { visible := (h.visible).trans
                (updateVisibleList_config_irrelevant m _ hre).symm
              cursor := h.cursor
              pointer := h.pointer }
  · simp only [hge, if_false]
    exact ⟨m, rfl, h, rfl, rfl, rfl⟩

theorem Inv.keyQuickSelect {m : Model} (h : Inv m) (env : Env) (idx : Int) (h0 : 0 ≤ idx) :
    ∃ m' c, keyQuickSelect env m idx = some (m', c) ∧ Inv m' ∧ m'.stations = m.stations ∧
      m'.allGenres = m.allGenres ∧ m'.currentGenre = m.currentGenre := by
  unfold RadioRecord.keyQuickSelect
  split_ifs with hlt
  · obtain ⟨favID, hf⟩ := index_of_lt m.config.Favorites idx h0 hlt
    simp only [hf]
    cases hfind : findStationByID favID m.stations 0 with
    | none => exact ⟨m, Cmd.none, rfl, h, rfl, rfl, rfl⟩
    | some i =>
      obtain ⟨h1, _, h3, _, h5, _⟩ := playStation_same env m i
      exact ⟨_, _, rfl, h.playStation env i, h1, h5, h3⟩
  · exact ⟨m, Cmd.none, rfl, h, rfl, rfl, rfl⟩

/-- Keys in normal mode keep the invariant and the catalog, and keep the tab selector within
the tab list. -/
theorem Inv.updateNormalKey {m : Model} (h : Inv m) (env : Env) (k : String) :
    ∃ m' c, updateNormalKey env m k = some (m', c) ∧ Inv m' ∧ m'.stations = m.stations ∧
      m'.allGenres = m.allGenres ∧
      (-1 ≤ m.currentGenre ∧ m.currentGenre < len m.allGenres →
        -1 ≤ m'.currentGenre ∧ m'.currentGenre < len m'.allGenres) := by
  have same : ∀ m' : Model, Inv m' → m'.stations = m.stations → m'.allGenres = m.allGenres →
      m'.currentGenre = m.currentGenre → ∀ c : Cmd,
      ∃ m'' c', some (m', c) = some (m'', c') ∧ Inv m'' ∧ m''.stations = m.stations ∧
        m''.allGenres = m.allGenres ∧
        (-1 ≤ m.currentGenre ∧ m.currentGenre < len m.allGenres →
          -1 ≤ m''.currentGenre ∧ m''.currentGenre < len m''.allGenres) :=
    fun m' hi hs ha hg c => ⟨m', c, rfl, hi, hs, ha, fun ht => by rw [hg, ha]; exact ht⟩
  unfold RadioRecord.updateNormalKey
  by_cases c0 : k = "ctrl+c" ∨ k = "q"
  · rw [if_pos c0]
    exact ⟨_, _, rfl, h.of_same _ rfl rfl rfl rfl rfl rfl rfl rfl rfl, rfl, rfl, fun ht => ht⟩
  rw [if_neg c0]
  by_cases c1 : k = "/"
  · rw [if_pos c1]
    exact ⟨_, _, rfl, h.of_same _ rfl rfl rfl rfl rfl rfl rfl rfl rfl, rfl, rfl, fun ht => ht⟩
  rw [if_neg c1]
  by_cases c2 : k = "?"
  · rw [if_pos c2]
    exact ⟨_, _, rfl, h.of_same _ rfl rfl rfl rfl rfl rfl rfl rfl rfl, rfl, rfl, fun ht => ht⟩
  rw [if_neg c2]
  by_cases c3 : k = "esc"
  · rw [if_pos c3]
    exact same _ h.clearSearch rfl rfl rfl _
  rw [if_neg c3]
  by_cases c4 : k = "n"
  · rw [if_pos c4]
    obtain ⟨m', h1, h2, h3, h4, h5⟩ := h.nextMatch
    rw [h1]
    exact same m' h2 h3 h4 h5 _
  rw [if_neg c4]
  by_cases c5 : k = "N"
  · rw [if_pos c5]
    obtain ⟨m', h1, h2, h3, h4, h5⟩ := h.prevMatch
    rw [h1]
    exact same m' h2 h3 h4 h5 _
  rw [if_neg c5]
  by_cases c6 : k = "up" ∨ k = "k"
  · rw [if_pos c6]
    refine same _ h.keyUp ?_ ?_ ?_ _ <;> (unfold RadioRecord.keyUp; split_ifs <;> rfl)
  rw [if_neg c6]
  by_cases c7 : k = "down" ∨ k = "j"
  · rw [if_pos c7]
    refine same _ h.keyDown ?_ ?_ ?_ _ <;> (unfold RadioRecord.keyDown; split_ifs <;> rfl)
  rw [if_neg c7]
  by_cases c8 : k = "g"
  · rw [if_pos c8]
    exact same _ h.keyTop rfl rfl rfl _
  rw [if_neg c8]
  by_cases c9 : k = "G"
  · rw [if_pos c9]
    refine same _ h.keyBottom ?_ ?_ ?_ _ <;> (unfold RadioRecord.keyBottom; split_ifs <;> rfl)
  rw [if_neg c9]
  by_cases c10 : k = "enter" ∨ k = " "
  · rw [if_pos c10]
    obtain ⟨h1, h2, h3⟩ := keyPlay_same env m
    exact same _ (h.keyPlay env) h1 h2 h3 _
  rw [if_neg c10]
  by_cases c11 : k = "s"
  · rw [if_pos c11]
    exact same _ (h.of_same (keyStop m) rfl rfl rfl rfl rfl rfl rfl rfl rfl) rfl rfl rfl _
  rw [if_neg c11]
  by_cases c12 : k = "+" ∨ k = "="
  · rw [if_pos c12]
    exact ⟨_, _, rfl, h.of_same _ rfl rfl rfl rfl rfl rfl rfl rfl rfl, rfl, rfl, fun ht => ht⟩
  rw [if_neg c12]
  by_cases c13 : k = "-" ∨ k = "_"
  · rw [if_pos c13]
    exact ⟨_, _, rfl, h.of_same _ rfl rfl rfl rfl rfl rfl rfl rfl rfl, rfl, rfl, fun ht => ht⟩
  rw [if_neg c13]
  by_cases c14 : k = "tab"
  · rw [if_pos c14]
    obtain ⟨h1, h2, h3, h4⟩ := h.keyTab
    exact ⟨_, _, rfl, h1, h2, h3, h4⟩
  rw [if_neg c14]
  by_cases c15 : k = "shift+tab"
  · rw [if_pos c15]
    obtain ⟨h1, h2, h3, h4⟩ := h.keyShiftTab
    exact ⟨_, _, rfl, h1, h2, h3, h4⟩
  rw [if_neg c15]
  by_cases c16 : k = "f"
  · rw [if_pos c16]
    obtain ⟨m', h1, h2, h3, h4, h5⟩ := h.keyToggleFavorite
    rw [h1]
    exact same m' h2 h3 h4 h5 _
  rw [if_neg c16]
  by_cases c17 : k = "F"
  · rw [if_pos c17]
    exact ⟨keyFavoritesOnly m, _, rfl,
      Inv.rebuild_clear { m with showFavorites := !m.showFavorites } h.cursor.1, rfl, rfl,
      fun ht => ht⟩
  rw [if_neg c17]
  by_cases c18 : k = "0"
  · rw [if_pos c18]
    have hlen : (0 : Int) ≤ len m.allGenres := by unfold len; omega
    exact ⟨keyReset m, _, rfl,
      Inv.rebuild_clear { m with currentGenre := -1, showFavorites := false } h.cursor.1,
      rfl, rfl, fun _ => ⟨le_refl _, by show (-1 : Int) < len m.allGenres; omega⟩⟩
  rw [if_neg c18]
  cases hq : quickSelectIndex k with
  | none => exact same m h rfl rfl rfl _
  | some idx =>
    obtain ⟨m', c, h1, h2, h3, h4, h5⟩ :=
      h.keyQuickSelect env idx (quickSelectIndex_nonneg k idx hq)
    simp only [h1]
    exact same m' h2 h3 h4 h5 c

/-- Every event keeps the invariant, and `Update` never panics on a state that has it. -/
theorem Inv.Update {m : Model} (h : Inv m) (env : Env) (msg : Msg) :
    ∃ m' c, Update env m msg = some (m', c) ∧ Inv m' := by
  cases msg with
  | key k =>
    simp only [RadioRecord.Update]
    by_cases hh : m.mode = Mode.modeHelp
    · rw [if_pos hh]
      exact ⟨_, _, rfl, h.of_same _ rfl rfl rfl rfl rfl rfl rfl rfl rfl⟩
    rw [if_neg hh]
    by_cases hs : m.mode = Mode.modeSearch
    · rw [if_pos hs]
      obtain ⟨m', h1, h2, _⟩ := h.updateSearchKey env k
      exact ⟨m', Cmd.none, by rw [h1]; rfl, h2⟩
    rw [if_neg hs]
    obtain ⟨m', c, h1, h2, _⟩ := h.updateNormalKey env k
    exact ⟨m', c, h1, h2⟩
  | windowSize w ht => exact ⟨_, _, rfl, h.of_same _ rfl rfl rfl rfl rfl rfl rfl rfl rfl⟩
  | stationsLoaded stations err =>
    cases err with
    | some e => exact ⟨_, _, rfl, h.of_same _ rfl rfl rfl rfl rfl rfl rfl rfl rfl⟩
    | none => exact ⟨_, _, rfl, Inv.updateVisibleList _ h.cursor.1 h.pointer⟩
  | nowPlaying track => exact ⟨_, _, rfl, h.of_same _ rfl rfl rfl rfl rfl rfl rfl rfl rfl⟩
  | tick => exact ⟨_, _, rfl, h⟩
  | other => exact ⟨_, _, rfl, h⟩

theorem Inv.NewModel (p : Player) (cfg : Config) : Inv (NewModel p cfg) where
  visible := by simp [RadioRecord.NewModel, RadioRecord.updateVisibleList, appendIndices]
  cursor := ⟨le_refl 0, Or.inr ⟨rfl, rfl⟩⟩
  pointer := fun hne => absurd rfl hne

/-- A run from a state with the invariant never panics and ends in a state with it. -/
theorem Inv.run {m : Model} (h : Inv m) (events : List (Env × Msg)) :
    ∃ m', run m events = some m' ∧ Inv m' := by
  induction events generalizing m with
  | nil => exact ⟨m, rfl, h⟩
  | cons e rest ih =>
    obtain ⟨env, msg⟩ := e
    obtain ⟨m1, c, h1, h2⟩ := h.Update env msg
    obtain ⟨m', h3, h4⟩ := ih h2
    exact ⟨m', by simp [RadioRecord.run, h1, h3], h4⟩

theorem mem_updateVisibleList_general (m : Model)
    (hb : ¬ (m.currentGenre = -1 ∧ m.showFavorites = false)) (i : Int) :
    i ∈ (updateVisibleList m).visibleList ↔
      ∃ s, index m.stations i = some s ∧ passesFilters m s = true := by
  have hb2 : ¬ (m.currentGenre = -1 ∧ (!m.showFavorites) = true) := by
    simpa using hb
  simp only [updateVisibleList, hb2, if_false, appendIndices_eq, List.nil_append,
    mem_stationIndices]

theorem visible_passes_predicate (m : Model) (hinv : Inv m)
    (htab : -1 ≤ m.currentGenre ∧ m.currentGenre < len m.allGenres) :
    ∀ i ∈ m.visibleList, ∃ s, index m.stations i = some s ∧
      (m.showFavorites = true → m.config.IsFavorite s.ID = true) ∧
      (m.currentGenre = -1 ∨
        ∃ name, index m.allGenres m.currentGenre = some name ∧
          ∃ g ∈ s.Genres, g.Name = name) := by
  intro i hi
  by_cases hb : m.currentGenre = -1 ∧ m.showFavorites = false
  · obtain ⟨s, hs⟩ := index_of_lt m.stations i (hinv.valid i hi).1 (hinv.valid i hi).2
    exact ⟨s, hs, fun hf => by simp [hb.2] at hf, Or.inl hb.1⟩
  · rw [hinv.visible, mem_updateVisibleList_general m hb] at hi
    obtain ⟨s, hs, hp⟩ := hi
    obtain ⟨h1, h2⟩ := (passesFilters_iff m s).1 hp
    refine ⟨s, hs, h1, ?_⟩
    rcases h2 with h2 | h2
    · left; omega
    · exact Or.inr h2

theorem run_keys_inv (m : Model) (hinv : Inv m)
    (htab : -1 ≤ m.currentGenre ∧ m.currentGenre < len m.allGenres)
    (keys : List (Env × String)) :
    ∃ m', run m (keyEvents keys) = some m' ∧ Inv m' ∧
      (-1 ≤ m'.currentGenre ∧ m'.currentGenre < len m'.allGenres) := by
  induction keys generalizing m with
  | nil => exact ⟨m, rfl, hinv, htab⟩
  | cons ek rest ih =>
    obtain ⟨env, k⟩ := ek
    have step : ∃ m1 c, Update env m (Msg.key k) = some (m1, c) ∧ Inv m1 ∧
        (-1 ≤ m1.currentGenre ∧ m1.currentGenre < len m1.allGenres) := by
      simp only [Update]
      by_cases hh : m.mode = Mode.modeHelp
      · rw [if_pos hh]
        exact ⟨_, _, rfl, hinv.of_same _ rfl rfl rfl rfl rfl rfl rfl rfl rfl, htab⟩
      rw [if_neg hh]
      by_cases hs : m.mode = Mode.modeSearch
      · rw [if_pos hs]
        obtain ⟨m', h1, h2, _, h4, h5⟩ := hinv.updateSearchKey env k
        exact ⟨m', Cmd.none, by rw [h1]; rfl, h2, by rw [h4, h5]; exact htab⟩
      rw [if_neg hs]
      obtain ⟨m', c, h1, h2, _, _, h5⟩ := hinv.updateNormalKey env k
      exact ⟨m', c, h1, h2, h5 htab⟩
    obtain ⟨m1, c, h1, h2, h3⟩ := step
    obtain ⟨m', h4, h5, h6⟩ := ih m1 h2 h3
    exact ⟨m', by simp [keyEvents, run, h1] at h4 ⊢; exact h4, h5, h6⟩

/-- C3: in every state reached from `NewModel` by one catalog load followed by key events,
the visible list is the one `updateVisibleList` would compute from the current stations, tab,
favorites-only flag and favorites (also after `f` on a genre tab, where no rebuild runs), and
every index in it is a station passing the current tab and favorite tests. -/
theorem visible_list_stays_current (p : Player) (cfg : Config) (env : Env)
    (stations : List Station) (err : Option String) (keys : List (Env × String)) :
    ∃ m, run (NewModel p cfg) ((env, Msg.stationsLoaded stations err) :: keyEvents keys) =
        some m ∧
      m.visibleList = (updateVisibleList m).visibleList ∧
      ∀ i ∈ m.visibleList, ∃ s, index m.stations i = some s ∧
        (m.showFavorites = true → m.config.IsFavorite s.ID = true) ∧
        (m.currentGenre = -1 ∨
          ∃ name, index m.allGenres m.currentGenre = some name ∧
            ∃ g ∈ s.Genres, g.Name = name) := by
  obtain ⟨m1, c, h1, h2⟩ := (Inv.NewModel p cfg).Update env (Msg.stationsLoaded stations err)
  have hcg : m1.currentGenre = -1 := by
    cases err with
    | some e =>
      simp only [Update, Option.some.injEq, Prod.mk.injEq] at h1
      rw [← h1.1]
      rfl
    | none =>
      simp only [Update, Option.some.injEq, Prod.mk.injEq] at h1
      rw [← h1.1]
      rfl
  have htab : -1 ≤ m1.currentGenre ∧ m1.currentGenre < len m1.allGenres := by
    have hlen : (0 : Int) ≤ len m1.allGenres := by unfold len; omega
    rw [hcg]
    exact ⟨le_refl _, by omega⟩
  obtain ⟨m, h3, h4, h5⟩ := run_keys_inv m1 h2 htab keys
  refine ⟨m, ?_, h4.visible, visible_passes_predicate m h4 h5⟩
  simp only [run, h1, h3]

/-- C8: in every state reached from `NewModel` by any sequence of events, no event having
panicked, the cursor is at least 0, is below the length of the visible list when that list
is non-empty, and is 0 when it is empty. -/
theorem cursor_stays_in_range (p : Player) (cfg : Config) (events : List (Env × Msg)) :
    ∃ m, run (NewModel p cfg) events = some m ∧ 0 ≤ m.cursor ∧
      (m.visibleList ≠ [] → m.cursor < len m.visibleList) ∧
      (m.visibleList = [] → m.cursor = 0) := by
  obtain ⟨m, h1, h2⟩ := (Inv.NewModel p cfg).run events
  refine ⟨m, h1, h2.cursor.1, fun hne => ?_, fun he => ?_⟩
  · rcases h2.cursor.2 with h | ⟨h, _⟩
    · exact h
    · exact absurd h hne
  · rcases h2.cursor.2 with h | ⟨_, h⟩
    · rw [he] at h
      have := h2.cursor.1
      simp [len] at h
      omega
    · exact h

/-- C3 on the catalog `[A, B, C, D]`: after the load, `tab` and `f` the state is on the Techno
tab with station A a favorite, no rebuild has run for `f`, and the visible list `[0, 2]` is
the one a rebuild gives. -/
theorem visible_list_stays_current_witness :
    (run startExample ((exampleEnv, Msg.stationsLoaded fourStations none) ::
        keyEvents (exampleKeys ["tab", "f"]))).map
      (fun m => (m.currentGenre, m.showFavorites, m.config.Favorites, m.visibleList,
        (updateVisibleList m).visibleList)) = some (0, false, [1], [0, 2], [0, 2]) ∧
    ∃ m, run startExample ((exampleEnv, Msg.stationsLoaded fourStations none) ::
          keyEvents (exampleKeys ["tab", "f"])) = some m ∧
      m.visibleList = (updateVisibleList m).visibleList ∧
      ∀ i ∈ m.visibleList, ∃ s, index m.stations i = some s ∧
        (m.showFavorites = true → m.config.IsFavorite s.ID = true) ∧
        (m.currentGenre = -1 ∨
          ∃ name, index m.allGenres m.currentGenre = some name ∧
            ∃ g ∈ s.Genres, g.Name = name) :=
  ⟨by decide,
   visible_list_stays_current Player.New { Favorites := [], Volume := 80 } exampleEnv
     fourStations none (exampleKeys ["tab", "f"])⟩

/-- C6 fails on the code. After a search is committed with `enter` the match list is kept;
`f` then rebuilds the visible list without touching it. On the All tab the favorite moves to
the top, so the matches `[0, 2]` are no longer in the order of the visible list `[2, 0, 1]`;
with the favorites-only flag set the toggled station leaves the visible list, which becomes
empty while the match list is still `[0]`. -/
theorem stale_matches_after_favorite_toggle :
    (run startExample ((exampleEnv, Msg.stationsLoaded rockStations none) ::
        keyEvents (exampleKeys ["/", "r", "enter", "G", "f"]))).map
      (fun m => (m.visibleList, m.filtered)) = some ([2, 0, 1], [0, 2]) ∧
    ¬ ([0, 2] : List Int).Sublist [2, 0, 1] ∧
    (run startWithFavorite ((exampleEnv, Msg.stationsLoaded rockStations none) ::
        keyEvents (exampleKeys ["F", "/", "r", "enter", "f"]))).map
      (fun m => (m.visibleList, m.filtered)) = some ([], [0]) ∧
    (0 : Int) ∉ ([] : List Int) := by
  decide

/-- C8 on a run with a load, a resize, a tick, a now-playing result and keys of all three
modes: the cursor ends on row 2 of three. -/
theorem cursor_stays_in_range_witness :
    (run startExample
        ((exampleEnv, Msg.stationsLoaded rockStations none) ::
         (exampleEnv, Msg.windowSize 100 40) :: (exampleEnv, Msg.tick) ::
         (exampleEnv, Msg.nowPlaying none) ::
         keyEvents (exampleKeys ["G", "?", "q", "/", "j", "esc", "tab", "down"]))).map
      (fun m => (m.cursor, m.visibleList)) = some (2, [0, 1, 2]) ∧
    ∃ m, run startExample
          ((exampleEnv, Msg.stationsLoaded rockStations none) ::
           (exampleEnv, Msg.windowSize 100 40) :: (exampleEnv, Msg.tick) ::
           (exampleEnv, Msg.nowPlaying none) ::
           keyEvents (exampleKeys ["G", "?", "q", "/", "j", "esc", "tab", "down"])) = some m ∧
      0 ≤ m.cursor ∧ (m.visibleList ≠ [] → m.cursor < len m.visibleList) ∧
      (m.visibleList = [] → m.cursor = 0) :=
  ⟨by decide,
   cursor_stays_in_range Player.New { Favorites := [], Volume := 80 }
     ((exampleEnv, Msg.stationsLoaded rockStations none) ::
      (exampleEnv, Msg.windowSize 100 40) :: (exampleEnv, Msg.tick) ::
      (exampleEnv, Msg.nowPlaying none) ::
      keyEvents (exampleKeys ["G", "?", "q", "/", "j", "esc", "tab", "down"]))⟩

theorem mem_of_index_eq_some {α : Type} (xs : List α) (i : Int) (x : α)
    (h : index xs i = some x) : x ∈ xs := by
  obtain ⟨n, _, hn⟩ := (index_eq_some_iff xs i x).1 h
  exact List.mem_iff_getElem?.2 ⟨n, hn⟩

theorem seekLoop_lands (filtered vis : List Int) (k t : Int) (r : Option Int)
    (hk : index filtered k = some t) (hsub : filtered.Sublist vis) (hnd : vis.Nodup)
    (hr : seekLoop filtered k vis 0 = some r) :
    ∃ c, r = some c ∧ index vis c = some t ∧ ∀ j, index vis j = some t → j = c := by
  obtain ⟨r', hr', hsome, hnone⟩ := seekLoop_total filtered k t vis hk
  have hrr : r = r' := Option.some.inj (hr.symm.trans hr')
  subst hrr
  have htv : t ∈ vis := hsub.subset (mem_of_index_eq_some filtered k t hk)
  cases r with
  | none => exact absurd htv (hnone rfl)
  | some c =>
    obtain ⟨n, hc, hn, _⟩ := hsome c rfl
    refine ⟨c, rfl, (index_eq_some_iff vis c t).2 ⟨n, hc, hn⟩, fun j hj => ?_⟩
    obtain ⟨p, hjp, hp⟩ := (index_eq_some_iff vis j t).1 hj
    have hlt := (List.getElem?_eq_some.1 hp).1
    have hpn : p = n := List.getElem?_inj hlt hnd (hp.trans hn.symm)
    rw [hjp, hc, hpn]

/-- C11: `nextMatch` and `prevMatch` leave a state without matches unchanged; with a
non-empty match list that is a sublist of a duplicate-free visible list and a match pointer
in range, they put the cursor on the one row of the visible list that shows the newly
selected match, so that `visibleList[cursor] = filtered[matchIndex]`. -/
theorem match_cycling_moves_cursor (m : Model) :
    (m.filtered = [] → nextMatch m = some m ∧ prevMatch m = some m) ∧
    (m.filtered ≠ [] → m.filtered.Sublist m.visibleList → m.visibleList.Nodup →
      0 ≤ m.matchIndex ∧ m.matchIndex < len m.filtered →
      (∃ m', nextMatch m = some m' ∧ m'.visibleList = m.visibleList ∧
        m'.filtered = m.filtered ∧
        ∃ t, index m'.filtered m'.matchIndex = some t ∧
          index m'.visibleList m'.cursor = some t ∧
          ∀ j, index m'.visibleList j = some t → j = m'.cursor) ∧
      (∃ m', prevMatch m = some m' ∧ m'.visibleList = m.visibleList ∧
        m'.filtered = m.filtered ∧
        ∃ t, index m'.filtered m'.matchIndex = some t ∧
          index m'.visibleList m'.cursor = some t ∧
          ∀ j, index m'.visibleList j = some t → j = m'.cursor)) := by
  refine ⟨fun he => ⟨by simp [nextMatch, he, len], by simp [prevMatch, he, len]⟩,
    fun _ hsub hnd hp => ⟨?_, ?_⟩⟩
  · obtain ⟨t, r, ht, hr, hstep⟩ := nextMatch_eq m hp
    obtain ⟨c, rfl, hc, huniq⟩ := seekLoop_lands m.filtered m.visibleList _ t r ht hsub hnd hr
    exact ⟨_, hstep, rfl, rfl, t, ht, hc, huniq⟩
  · obtain ⟨t, r, ht, hr, hstep⟩ := prevMatch_eq m hp
    obtain ⟨c, rfl, hc, huniq⟩ := seekLoop_lands m.filtered m.visibleList _ t r ht hsub hnd hr
    exact ⟨_, hstep, rfl, rfl, t, ht, hc, huniq⟩

/-- C11 on the visible list `[3, 0, 2, 1]` with matches `[3, 2, 1]` and the pointer at 0:
`nextMatch` selects match 2 on row 2 and `prevMatch` selects match 1 on row 3. -/
theorem match_cycling_moves_cursor_witness :
    ((nextMatch cyclingExample).map (fun m => (m.matchIndex, m.cursor)) = some (1, 2) ∧
     (prevMatch cyclingExample).map (fun m => (m.matchIndex, m.cursor)) = some (2, 3)) ∧
    (∃ m', nextMatch cyclingExample = some m' ∧
        m'.visibleList = cyclingExample.visibleList ∧ m'.filtered = cyclingExample.filtered ∧
        ∃ t, index m'.filtered m'.matchIndex = some t ∧
          index m'.visibleList m'.cursor = some t ∧
          ∀ j, index m'.visibleList j = some t → j = m'.cursor) ∧
    (∃ m', prevMatch cyclingExample = some m' ∧
        m'.visibleList = cyclingExample.visibleList ∧ m'.filtered = cyclingExample.filtered ∧
        ∃ t, index m'.filtered m'.matchIndex = some t ∧
          index m'.visibleList m'.cursor = some t ∧
          ∀ j, index m'.visibleList j = some t → j = m'.cursor) :=
  ⟨by decide,
   (match_cycling_moves_cursor cyclingExample).2 (by decide) (by decide) (by decide)
     (by decide)⟩

theorem updateNormalKey_esc (env : Env) (m : Model) :
    updateNormalKey env m "esc" = some (clearSearch m, Cmd.none) := rfl

theorem updateNormalKey_tab (env : Env) (m : Model) :
    updateNormalKey env m "tab" = some (keyTab m, Cmd.none) := rfl

theorem updateNormalKey_shiftTab (env : Env) (m : Model) :
    updateNormalKey env m "shift+tab" = some (keyShiftTab m, Cmd.none) := rfl

theorem updateNormalKey_favoritesOnly (env : Env) (m : Model) :
    updateNormalKey env m "F" = some (keyFavoritesOnly m, Cmd.none) := rfl

theorem updateNormalKey_reset (env : Env) (m : Model) :
    updateNormalKey env m "0" = some (keyReset m, Cmd.none) := rfl

theorem keyTab_eq (m : Model) :
    keyTab m = clearSearch (updateVisibleList { m with currentGenre :=
      (if m.currentGenre + 1 ≥ len m.allGenres then -1 else m.currentGenre + 1) }) := by
  unfold keyTab
  simp only
  split_ifs <;> rfl

theorem keyShiftTab_eq (m : Model) :
    keyShiftTab m = clearSearch (updateVisibleList { m with currentGenre :=
      (if m.currentGenre - 1 < -1 then len m.allGenres - 1 else m.currentGenre - 1) }) := by
  unfold keyShiftTab
  simp only
  split_ifs <;> rfl

theorem Update_normal (env : Env) (m : Model) (k : String) (h : m.mode = Mode.modeNormal) :
    Update env m (Msg.key k) = updateNormalKey env m k := by
  simp [Update, h]

theorem Update_search (env : Env) (m : Model) (k : String) (h : m.mode = Mode.modeSearch) :
    Update env m (Msg.key k) = (updateSearchKey env m k).map (fun m => (m, Cmd.none)) := by
  simp [Update, h]

theorem updateSearchKey_enter (env : Env) (m : Model) :
    updateSearchKey env m "enter" =
      some { m with mode := Mode.modeNormal, searchQuery := "" } := rfl

theorem updateSearchKey_esc (env : Env) (m : Model) :
    updateSearchKey env m "esc" = some (clearSearch { m with mode := Mode.modeNormal }) := rfl

/-- C12, as stated, fails: after a search for "r" is committed, `n` moves the match pointer
to 1, `/` reopens the search and `enter` commits again; the query is empty but the match
list is still `[0, 2]` and the match pointer is still 1. -/
theorem commit_keeps_match_list :
    (run startExample ((exampleEnv, Msg.stationsLoaded rockStations none) ::
        keyEvents (exampleKeys ["/", "r", "enter", "n", "/"]))).map
      (fun m => (m.mode, m.filtered, m.matchIndex)) = some (Mode.modeSearch, [0, 2], 1) ∧
    (run startExample ((exampleEnv, Msg.stationsLoaded rockStations none) ::
        keyEvents (exampleKeys ["/", "r", "enter", "n", "/", "enter"]))).map
      (fun m => (m.mode, m.searchQuery, m.filtered, m.matchIndex)) =
        some (Mode.modeNormal, "", [0, 2], 1) := by
  decide

/-- C12, amended: in search mode the `enter` key empties the query and leaves the match list
and the match pointer as they were. -/
theorem commit_clears_query_only (env : Env) (m : Model) (hmode : m.mode = Mode.modeSearch) :
    ∃ m', Update env m (Msg.key "enter") = some (m', Cmd.none) ∧ m'.searchQuery = "" ∧
      m'.filtered = m.filtered ∧ m'.matchIndex = m.matchIndex := by
  rw [Update_search env m "enter" hmode, updateSearchKey_enter]
  exact ⟨_, rfl, rfl, rfl, rfl⟩

/-- C12 amended, on a search with two matches: after `enter` the query is empty and the
matches `[0, 2]` remain. -/
theorem commit_clears_query_only_witness :
    ∃ m', Update exampleEnv pendingCommitExample (Msg.key "enter") = some (m', Cmd.none) ∧
      m'.searchQuery = "" ∧ m'.filtered = [0, 2] ∧ m'.matchIndex = 0 :=
  commit_clears_query_only exampleEnv pendingCommitExample (by decide)

/-- C13: `esc` in search mode returns to normal mode, and `esc`, `tab`, `shift+tab`, `F` and
`0` in normal mode all leave the query empty, the match list empty and the match pointer 0;
`tab` and `shift+tab` also leave the visible list rebuilt for the new tab. -/
theorem search_cleared_by_cancel_and_filter_keys (env : Env) (m : Model) :
    (m.mode = Mode.modeSearch →
      ∃ m', Update env m (Msg.key "esc") = some (m', Cmd.none) ∧ m'.mode = Mode.modeNormal ∧
        m'.searchQuery = "" ∧ m'.filtered = [] ∧ m'.matchIndex = 0) ∧
    (m.mode = Mode.modeNormal →
      (∀ k ∈ ["esc", "tab", "shift+tab", "F", "0"],
        ∃ m', Update env m (Msg.key k) = some (m', Cmd.none) ∧
          m'.searchQuery = "" ∧ m'.filtered = [] ∧ m'.matchIndex = 0) ∧
      (∀ k ∈ ["tab", "shift+tab"],
        ∃ m', Update env m (Msg.key k) = some (m', Cmd.none) ∧
          m'.visibleList = (updateVisibleList m').visibleList ∧
          m'.visibleList =
            (updateVisibleList { m with currentGenre := m'.currentGenre }).visibleList)) := by
  refine ⟨fun hs => ?_, fun hn => ⟨fun k hk => ?_, fun k hk => ?_⟩⟩
  · rw [Update_search env m "esc" hs, updateSearchKey_esc]
    exact ⟨_, rfl, rfl, rfl, rfl, rfl⟩
  · rw [Update_normal env m k hn]
    simp only [List.mem_cons, List.mem_singleton, List.not_mem_nil, or_false] at hk
    rcases hk with rfl | rfl | rfl | rfl | rfl
    · exact ⟨_, updateNormalKey_esc env m, rfl, rfl, rfl⟩
    · exact ⟨_, updateNormalKey_tab env m, rfl, rfl, rfl⟩
    · exact ⟨_, updateNormalKey_shiftTab env m, rfl, rfl, rfl⟩
    · exact ⟨_, updateNormalKey_favoritesOnly env m, rfl, rfl, rfl⟩
    · exact ⟨_, updateNormalKey_reset env m, rfl, rfl, rfl⟩
  · rw [Update_normal env m k hn]
    simp only [List.mem_cons, List.mem_singleton, List.not_mem_nil, or_false] at hk
    rcases hk with rfl | rfl
    · refine ⟨_, updateNormalKey_tab env m, ?_, ?_⟩
      · rw [keyTab_eq]
        exact (updateVisibleList_congr _ _ rfl rfl rfl rfl rfl).symm
      · rw [keyTab_eq]
        exact updateVisibleList_congr _ _ rfl rfl rfl rfl rfl
    · refine ⟨_, updateNormalKey_shiftTab env m, ?_, ?_⟩
      · rw [keyShiftTab_eq]
        exact (updateVisibleList_congr _ _ rfl rfl rfl rfl rfl).symm
      · rw [keyShiftTab_eq]
        exact updateVisibleList_congr _ _ rfl rfl rfl rfl rfl

/-- C13 on two states with an active search: `esc` in search mode and `tab` on the last
genre tab both end with an empty query and no matches; `tab` shows the All tab. -/
theorem search_cleared_by_cancel_and_filter_keys_witness :
    (∃ m', Update exampleEnv pendingCommitExample (Msg.key "esc") = some (m', Cmd.none) ∧
      m'.mode = Mode.modeNormal ∧ m'.searchQuery = "" ∧ m'.filtered = [] ∧
      m'.matchIndex = 0) ∧
    (∃ m', Update exampleEnv lastTabExample (Msg.key "tab") = some (m', Cmd.none) ∧
      m'.searchQuery = "" ∧ m'.filtered = [] ∧ m'.matchIndex = 0) ∧
    (Update exampleEnv lastTabExample (Msg.key "tab")).map
      (fun r => (r.1.currentGenre, r.1.visibleList)) = some (-1, [0, 1, 2, 3]) :=
  ⟨(search_cleared_by_cancel_and_filter_keys exampleEnv pendingCommitExample).1 (by decide),
   ((search_cleared_by_cancel_and_filter_keys exampleEnv lastTabExample).2 (by decide)).1
     "tab" (by decide),
   by decide⟩

/-- C14: in search mode the `enter` key gives normal mode and an empty query, issues no
command, and leaves the cursor, the selection, the visible list, the tab, the favorites-only
flag, the catalog, the favorites and the player as they were. -/
theorem commit_returns_to_normal (env : Env) (m : Model) (hmode : m.mode = Mode.modeSearch) :
    ∃ m', Update env m (Msg.key "enter") = some (m', Cmd.none) ∧
      m'.mode = Mode.modeNormal ∧ m'.searchQuery = "" ∧ m'.cursor = m.cursor ∧
      m'.selected = m.selected ∧ m'.visibleList = m.visibleList ∧
      m'.currentGenre = m.currentGenre ∧ m'.showFavorites = m.showFavorites ∧
      m'.stations = m.stations ∧ m'.config = m.config ∧ m'.player = m.player ∧
      m'.nowPlaying = m.nowPlaying := by
  rw [Update_search env m "enter" hmode, updateSearchKey_enter]
  exact ⟨_, rfl, rfl, rfl, rfl, rfl, rfl, rfl, rfl, rfl, rfl, rfl, rfl⟩

/-- C14 on a search with the cursor on row 1 and station 2 playing: after `enter` the mode
is normal, the query is empty, and cursor and selection are still 1 and 2. -/
theorem commit_returns_to_normal_witness :
    ∃ m', Update exampleEnv pendingCommitExample (Msg.key "enter") = some (m', Cmd.none) ∧
      m'.mode = Mode.modeNormal ∧ m'.searchQuery = "" ∧ m'.cursor = 1 ∧
      m'.selected = 2 ∧ m'.visibleList = [1, 0, 2] ∧
      m'.currentGenre = -1 ∧ m'.showFavorites = false ∧
      m'.stations = rockStations ∧ m'.config = pendingCommitExample.config ∧
      m'.player = pendingCommitExample.player ∧ m'.nowPlaying = none :=
  commit_returns_to_normal exampleEnv pendingCommitExample (by decide)

theorem keyTab_fields (m : Model) :
    (keyTab m).currentGenre =
      (if m.currentGenre + 1 ≥ len m.allGenres then -1 else m.currentGenre + 1) ∧
    (keyTab m).allGenres = m.allGenres ∧ (keyTab m).mode = m.mode := by
  rw [keyTab_eq]
  exact ⟨rfl, rfl, rfl⟩

theorem keyShiftTab_fields (m : Model) :
    (keyShiftTab m).currentGenre =
      (if m.currentGenre - 1 < -1 then len m.allGenres - 1 else m.currentGenre - 1) ∧
    (keyShiftTab m).allGenres = m.allGenres ∧ (keyShiftTab m).mode = m.mode := by
  rw [keyShiftTab_eq]
  exact ⟨rfl, rfl, rfl⟩

/-- C15: in normal mode with the tab selector `t` in `[-1, n)` for `n` genre tabs, `tab` sets
the selector to `t + 1` when `t + 1 < n` and to All (-1) otherwise, `shift+tab` sets it to
`t - 1` when `t >= 0` and to `n - 1` when `t` is All, and each key undoes the other. -/
theorem tab_cycling_wraps (env : Env) (m : Model) (hmode : m.mode = Mode.modeNormal)
    (ht : -1 ≤ m.currentGenre ∧ m.currentGenre < len m.allGenres) :
    (∃ m', Update env m (Msg.key "tab") = some (m', Cmd.none) ∧
      m'.currentGenre =
        (if m.currentGenre + 1 < len m.allGenres then m.currentGenre + 1 else -1) ∧
      m'.allGenres = m.allGenres ∧
      ∃ m'', Update env m' (Msg.key "shift+tab") = some (m'', Cmd.none) ∧
        m''.currentGenre = m.currentGenre) ∧
    (∃ m', Update env m (Msg.key "shift+tab") = some (m', Cmd.none) ∧
      m'.currentGenre =
        (if m.currentGenre ≥ 0 then m.currentGenre - 1 else len m.allGenres - 1) ∧
      m'.allGenres = m.allGenres ∧
      ∃ m'', Update env m' (Msg.key "tab") = some (m'', Cmd.none) ∧
        m''.currentGenre = m.currentGenre) := by
  obtain ⟨t1, t2, t3⟩ := keyTab_fields m
  obtain ⟨s1, s2, s3⟩ := keyShiftTab_fields m
  constructor
  · refine ⟨keyTab m, ?_, ?_, t2, keyShiftTab (keyTab m), ?_, ?_⟩
    · rw [Update_normal env m "tab" hmode, updateNormalKey_tab]
    · rw [t1]
      split_ifs <;> omega
    · rw [Update_normal env (keyTab m) "shift+tab" (t3.trans hmode), updateNormalKey_shiftTab]
    · rw [(keyShiftTab_fields (keyTab m)).1, t1, t2]
      split_ifs <;> omega
  · refine ⟨keyShiftTab m, ?_, ?_, s2, keyTab (keyShiftTab m), ?_, ?_⟩
    · rw [Update_normal env m "shift+tab" hmode, updateNormalKey_shiftTab]
    · rw [s1]
      split_ifs <;> omega
    · rw [Update_normal env (keyShiftTab m) "tab" (s3.trans hmode), updateNormalKey_tab]
    · rw [(keyTab_fields (keyShiftTab m)).1, s1, s2]
      split_ifs <;> omega

/-- C15 with two genre tabs: `tab` on genre 1 gives All, and `shift+tab` on All gives
genre 1. -/
theorem tab_cycling_wraps_witness :
    ((Update exampleEnv lastTabExample (Msg.key "tab")).map (fun r => r.1.currentGenre) =
        some (-1) ∧
     (Update exampleEnv allTabExample (Msg.key "shift+tab")).map (fun r => r.1.currentGenre) =
        some 1) ∧
    (∃ m', Update exampleEnv lastTabExample (Msg.key "tab") = some (m', Cmd.none) ∧
      m'.currentGenre =
        (if lastTabExample.currentGenre + 1 < len lastTabExample.allGenres
          then lastTabExample.currentGenre + 1 else -1) ∧
      m'.allGenres = lastTabExample.allGenres ∧
      ∃ m'', Update exampleEnv m' (Msg.key "shift+tab") = some (m'', Cmd.none) ∧
        m''.currentGenre = lastTabExample.currentGenre) :=
  ⟨by decide, (tab_cycling_wraps exampleEnv lastTabExample (by decide) (by decide)).1⟩

theorem doSearch_frame (env : Env) (m : Model)
    (hvis : ∀ idx ∈ m.visibleList, 0 ≤ idx ∧ idx < len m.stations) :
    ∃ f k c, doSearch env m = some { m with filtered := f, matchIndex := k, cursor := c } := by
  by_cases hq : m.searchQuery = ""
  · exact ⟨[], m.matchIndex, m.cursor, doSearch_empty_query env m hq⟩
  · rcases doSearch_eq env m hq hvis with ⟨_, h⟩ | ⟨t, rest, n, _, _, _, h⟩
    · exact ⟨[], m.matchIndex, m.cursor, h⟩
    · exact ⟨t :: rest, 0, (n : Int), h⟩

theorem ne_of_length_ne (k s : String) (h : k.length ≠ s.length) : k ≠ s :=
  fun he => h (by rw [he])

theorem updateSearchKey_char (env : Env) (m : Model) (k : String) (hk : k.length = 1) :
    updateSearchKey env m k = doSearch env { m with searchQuery := m.searchQuery ++ k } := by
  have h1 : k ≠ "enter" := ne_of_length_ne k "enter" (by rw [hk]; decide)
  have h2 : k ≠ "esc" := ne_of_length_ne k "esc" (by rw [hk]; decide)
  have h3 : k ≠ "backspace" := ne_of_length_ne k "backspace" (by rw [hk]; decide)
  unfold updateSearchKey
  rw [if_neg h1, if_neg h2, if_neg h3, if_pos hk]

theorem updateSearchKey_backspace (env : Env) (m : Model) (hq : m.searchQuery ≠ "") :
    updateSearchKey env m "backspace" =
      doSearch env { m with searchQuery := String.mk m.searchQuery.data.dropLast } := by
  have h1 : ("backspace" : String) ≠ "enter" := by decide
  have h2 : ("backspace" : String) ≠ "esc" := by decide
  unfold updateSearchKey
  rw [if_neg h1, if_neg h2, if_pos rfl, if_pos hq]

theorem updateSearchKey_ignored (env : Env) (m : Model) (k : String) (hk : k.length ≠ 1)
    (h1 : k ≠ "enter") (h2 : k ≠ "esc") (h3 : k ≠ "backspace") :
    updateSearchKey env m k = some m := by
  unfold updateSearchKey
  rw [if_neg h1, if_neg h2, if_neg h3, if_neg hk]

theorem search_type_step (env : Env) (m : Model) (k : String)
    (hmode : m.mode = Mode.modeSearch)
    (hvis : ∀ idx ∈ m.visibleList, 0 ≤ idx ∧ idx < len m.stations) (hk : k.length = 1) :
    ∃ f i c, Update env m (Msg.key k) =
      some ({ m with searchQuery := m.searchQuery ++ k, filtered := f, matchIndex := i,
                     cursor := c }, Cmd.none) := by
  obtain ⟨f, i, c, hd⟩ := doSearch_frame env { m with searchQuery := m.searchQuery ++ k } hvis
  refine ⟨f, i, c, ?_⟩
  rw [Update_search env m k hmode, updateSearchKey_char env m k hk, hd]
  rfl

theorem search_backspace_step (env : Env) (m : Model) (hmode : m.mode = Mode.modeSearch)
    (hvis : ∀ idx ∈ m.visibleList, 0 ≤ idx ∧ idx < len m.stations)
    (hq : m.searchQuery ≠ "") :
    ∃ f i c, Update env m (Msg.key "backspace") =
      some ({ m with searchQuery := String.mk m.searchQuery.data.dropLast, filtered := f,
                     matchIndex := i, cursor := c }, Cmd.none) := by
  obtain ⟨f, i, c, hd⟩ :=
    doSearch_frame env { m with searchQuery := String.mk m.searchQuery.data.dropLast } hvis
  refine ⟨f, i, c, ?_⟩
  rw [Update_search env m "backspace" hmode, updateSearchKey_backspace env m hq, hd]
  rfl

theorem push_ne_empty (q : String) (c : Char) : q.push c ≠ "" := by
  intro he
  have := congrArg String.length he
  simp at this

theorem dropLast_push (q : String) (c : Char) : String.mk (q.push c).data.dropLast = q := by
  simp [String.push]

theorem append_singleton_eq_push (q : String) (c : Char) :
    q ++ String.singleton c = q.push c := by
  apply String.ext
  simp [String.singleton, String.push]

/-- C16: in search mode a key whose text is one character appends that character to the
query (its whole UTF-8 encoding), and backspace right after it restores the query; a key
with a longer text other than enter, esc and backspace changes nothing; backspace on a
non-empty query removes its last character (all the bytes of that character). -/
theorem search_query_edited_by_characters (env : Env) (m : Model)
    (hmode : m.mode = Mode.modeSearch)
    (hvis : ∀ idx ∈ m.visibleList, 0 ≤ idx ∧ idx < len m.stations) :
    (∀ c : Char,
      ∃ m', Update env m (Msg.key (String.singleton c)) = some (m', Cmd.none) ∧
        m'.searchQuery.data = m.searchQuery.data ++ [c] ∧
        utf8 m'.searchQuery = utf8 m.searchQuery ++ utf8Char c ∧
        m'.mode = Mode.modeSearch ∧
        ∃ m'', Update env m' (Msg.key "backspace") = some (m'', Cmd.none) ∧
          m''.searchQuery = m.searchQuery) ∧
    (∀ k : String, k.length ≠ 1 → k ≠ "enter" → k ≠ "esc" → k ≠ "backspace" →
      Update env m (Msg.key k) = some (m, Cmd.none)) ∧
    (∀ (q : String) (c : Char), m.searchQuery = q.push c →
      ∃ m', Update env m (Msg.key "backspace") = some (m', Cmd.none) ∧
        m'.searchQuery = q ∧ utf8 m.searchQuery = utf8 m'.searchQuery ++ utf8Char c ∧
        m'.mode = Mode.modeSearch) := by
  refine ⟨fun c => ?_, fun k hk h1 h2 h3 => ?_, fun q c hqc => ?_⟩
  · obtain ⟨f, i, cur, h1⟩ := search_type_step env m (String.singleton c) hmode hvis rfl
    obtain ⟨f2, i2, cur2, h2⟩ := search_backspace_step env
      { m with searchQuery := m.searchQuery ++ String.singleton c, filtered := f,
               matchIndex := i, cursor := cur } hmode hvis
      (by rw [show (m.searchQuery ++ String.singleton c) = m.searchQuery.push c from
            append_singleton_eq_push _ _]; exact push_ne_empty _ _)
    refine ⟨_, h1, ?_, ?_, hmode, _, h2, ?_⟩
    · show (m.searchQuery ++ String.singleton c).data = _
      simp [String.singleton]
    · show utf8 (m.searchQuery ++ String.singleton c) = _
      simp [utf8, String.singleton]
    · show String.mk (m.searchQuery ++ String.singleton c).data.dropLast = m.searchQuery
      rw [append_singleton_eq_push, dropLast_push]
  · rw [Update_search env m k hmode, updateSearchKey_ignored env m k hk h1 h2 h3]
    rfl
  · obtain ⟨f, i, cur, h1⟩ := search_backspace_step env m hmode hvis
      (by rw [hqc]; exact push_ne_empty q c)
    refine ⟨_, h1, ?_, ?_, hmode⟩
    · show String.mk m.searchQuery.data.dropLast = q
      rw [hqc, dropLast_push]
    · show utf8 m.searchQuery = utf8 (String.mk m.searchQuery.data.dropLast) ++ utf8Char c
      rw [hqc, dropLast_push]
      simp [utf8, String.push]

/-- C16 on the Cyrillic query "ро": typing "к" (two bytes, `D0 BA`) gives "рок", backspace
after it gives "ро" again, and the chord `ctrl+c` changes nothing. -/
theorem search_query_edited_by_characters_witness :
    (utf8Char 'к' = [0xD0, 0xBA] ∧
     (Update exampleEnv cyrillicQueryExample (Msg.key "к")).map (fun r => r.1.searchQuery) =
        some "рок" ∧
     (run cyrillicQueryExample (keyEvents (exampleKeys ["к", "backspace"]))).map
        Model.searchQuery = some "ро") ∧
    (∃ m', Update exampleEnv cyrillicQueryExample (Msg.key (String.singleton 'к')) =
        some (m', Cmd.none) ∧
      m'.searchQuery.data = cyrillicQueryExample.searchQuery.data ++ ['к'] ∧
      utf8 m'.searchQuery = utf8 cyrillicQueryExample.searchQuery ++ utf8Char 'к' ∧
      m'.mode = Mode.modeSearch ∧
      ∃ m'', Update exampleEnv m' (Msg.key "backspace") = some (m'', Cmd.none) ∧
        m''.searchQuery = cyrillicQueryExample.searchQuery) ∧
    Update exampleEnv cyrillicQueryExample (Msg.key "ctrl+c") =
      some (cyrillicQueryExample, Cmd.none) :=
  ⟨by decide,
   (search_query_edited_by_characters exampleEnv cyrillicQueryExample (by decide)
      (by decide)).1 'к',
   (search_query_edited_by_characters exampleEnv cyrillicQueryExample (by decide)
      (by decide)).2.1 "ctrl+c" (by decide) (by decide) (by decide) (by decide)⟩

theorem findStationByID_some (favID : Int) (l : List Station) (j i : Int)
    (h : findStationByID favID l j = some i) :
    ∃ n : Nat, i = j + n ∧ ∃ s, l[n]? = some s ∧ s.ID = favID ∧
      ∀ p : Nat, p < n → ∀ s', l[p]? = some s' → s'.ID ≠ favID := by
  induction l generalizing j with
  | nil => simp [findStationByID] at h
  | cons s rest ih =>
    by_cases hs : s.ID = favID
    · simp only [findStationByID, hs, if_true, Option.some.injEq] at h
      exact ⟨0, by simp [h], s, by simp, hs, by simp⟩
    · simp only [findStationByID, hs, if_false] at h
      obtain ⟨n, hn, s1, h1, h2, h3⟩ := ih (j + 1) h
      refine ⟨n + 1, by rw [hn]; push_cast; ring, s1, by simpa using h1, h2, ?_⟩
      intro p hp s' hs'
      cases p with
      | zero =>
        simp only [List.getElem?_cons_zero, Option.some.injEq] at hs'
        rw [← hs']
        exact hs
      | succ p => exact h3 p (by omega) s' (by simpa using hs')

theorem findStationByID_none (favID : Int) (l : List Station) (j : Int) :
    findStationByID favID l j = none ↔ ∀ s ∈ l, s.ID ≠ favID := by
  induction l generalizing j with
  | nil => simp [findStationByID]
  | cons s rest ih =>
    by_cases hs : s.ID = favID
    · simp [findStationByID, hs]
    · simp [findStationByID, hs, ih (j + 1)]

theorem updateNormalKey_digit (env : Env) (m : Model) (k : String) (idx : Int)
    (hk : quickSelectIndex k = some idx) :
    updateNormalKey env m k = keyQuickSelect env m idx := by
  unfold quickSelectIndex at hk
  split_ifs at hk with h1 h2 h3 h4 h5 h6 h7 h8 h9 <;>
    simp only [Option.some.injEq] at hk <;> subst hk <;> subst_vars <;> rfl

theorem playStation_in_range (env : Env) (m : Model) (i : Int) (s : Station)
    (hs : index m.stations i = some s) :
    playStation env m i =
      ({ m with selected := i,
                player := m.player.Play s.Stream320 (env.mpvStarts s.Stream320) },
       Cmd.fetchNowPlaying s.ID) := by
  obtain ⟨h0, h1⟩ := index_lt_of_eq_some _ _ _ hs
  have hcond : ¬ (i < 0 ∨ i ≥ len m.stations) := by omega
  simp only [playStation, hcond, if_false, hs]

/-- C17: in normal mode, for the digit key with index `idx` (digit `idx + 1`): when the
favorites list has an entry `favID` at `idx` and some station has that identifier, the
selection becomes the catalog index of the first station with identifier `favID`, that
station's stream is played and its now-playing is fetched, whatever the visible list and the
cursor are; when the list is too short or no station has the identifier, the state is
unchanged and no command is issued. -/
theorem quick_select_resolves_by_identifier (env : Env) (m : Model) (k : String) (idx : Int)
    (hmode : m.mode = Mode.modeNormal) (hk : quickSelectIndex k = some idx) :
    (∀ favID, index m.config.Favorites idx = some favID →
      (∃ s ∈ m.stations, s.ID = favID) →
      ∃ i s, index m.stations i = some s ∧ s.ID = favID ∧
        (∀ j s', j < i → index m.stations j = some s' → s'.ID ≠ favID) ∧
        Update env m (Msg.key k) =
          some ({ m with selected := i,
                         player := m.player.Play s.Stream320 (env.mpvStarts s.Stream320) },
                Cmd.fetchNowPlaying s.ID)) ∧
    ((idx ≥ len m.config.Favorites ∨
        ∃ favID, index m.config.Favorites idx = some favID ∧
          ∀ s ∈ m.stations, s.ID ≠ favID) →
      Update env m (Msg.key k) = some (m, Cmd.none)) := by
  have hupd : Update env m (Msg.key k) = keyQuickSelect env m idx := by
    rw [Update_normal env m k hmode, updateNormalKey_digit env m k idx hk]
  refine ⟨fun favID hfav hex => ?_, fun hno => ?_⟩
  · have hlt := (index_lt_of_eq_some _ _ _ hfav).2
    cases hfind : findStationByID favID m.stations 0 with
    | none =>
      obtain ⟨s, hs, hid⟩ := hex
      exact absurd hid ((findStationByID_none favID m.stations 0).1 hfind s hs)
    | some i =>
      obtain ⟨n, hn, s, h1, h2, h3⟩ := findStationByID_some favID m.stations 0 i hfind
      have hi : index m.stations i = some s :=
        (index_eq_some_iff _ _ _).2 ⟨n, by simpa using hn, h1⟩
      refine ⟨i, s, hi, h2, ?_, ?_⟩
      · intro j s' hj hjs
        obtain ⟨p, hp, hps⟩ := (index_eq_some_iff _ _ _).1 hjs
        exact h3 p (by omega) s' hps
      · rw [hupd]
        simp only [keyQuickSelect, hlt, if_true, hfav, hfind]
        rw [playStation_in_range env m i s hi]
  · rw [hupd]
    rcases hno with hge | ⟨favID, hfav, hnone⟩
    · have : ¬ idx < len m.config.Favorites := by omega
      simp only [keyQuickSelect, this, if_false]
    · have hlt := (index_lt_of_eq_some _ _ _ hfav).2
      have hfind := (findStationByID_none favID m.stations 0).2 hnone
      simp only [keyQuickSelect, hlt, if_true, hfav, hfind]

/-- C17 with favorites `[7, 3, 9]`: the key "2" selects catalog index 2, the station with
identifier 3, plays its stream and fetches now-playing for identifier 3. -/
theorem quick_select_resolves_by_identifier_witness :
    ((Update exampleEnv quickSelectExample (Msg.key "2")).map
        (fun r => (r.1.selected, r.1.player.streamURL, r.1.cursor)) =
        some (2, "three.mp3", 1)) ∧
    (∃ i s, index quickSelectExample.stations i = some s ∧ s.ID = 3 ∧
      (∀ j s', j < i → index quickSelectExample.stations j = some s' → s'.ID ≠ 3) ∧
      Update exampleEnv quickSelectExample (Msg.key "2") =
        some ({ quickSelectExample with
                  selected := i,
                  player := quickSelectExample.player.Play s.Stream320
                    (exampleEnv.mpvStarts s.Stream320) },
              Cmd.fetchNowPlaying s.ID)) ∧
    Update exampleEnv quickSelectExample (Msg.key "4") = some (quickSelectExample, Cmd.none) :=
  ⟨by decide,
   (quick_select_resolves_by_identifier exampleEnv quickSelectExample "2" 1 (by decide)
      (by decide)).1 3 (by decide)
      ⟨{ ID := 3, Title := "Three", Tooltip := "", Stream320 := "three.mp3", Genres := [] },
       by decide, rfl⟩,
   (quick_select_resolves_by_identifier exampleEnv quickSelectExample "4" 3 (by decide)
      (by decide)).2 (Or.inl (by decide))⟩

/-- C18, as stated, fails: after a station is played and stopped, a now-playing result that
arrives late is stored although the selection is none; the event is not a no-op. -/
theorem stale_now_playing_is_stored :
    (run startExample
        [(exampleEnv, Msg.stationsLoaded rockStations none), (exampleEnv, Msg.key "enter"),
         (exampleEnv, Msg.key "s")]).map
      (fun m => (m.selected, m.nowPlaying)) = some (-1, none) ∧
    (run startExample
        [(exampleEnv, Msg.stationsLoaded rockStations none), (exampleEnv, Msg.key "enter"),
         (exampleEnv, Msg.key "s"), (exampleEnv, Msg.nowPlaying (some staleTrack))]).map
      (fun m => (m.selected, m.nowPlaying)) = some (-1, some staleTrack) ∧
    (Update exampleEnv stoppedExample (Msg.nowPlaying (some staleTrack))).map
      (fun r => r.1.nowPlaying) ≠ some stoppedExample.nowPlaying := by
  decide

/-- C18, amended: with no selection, a now-playing result is stored as it arrives and
nothing else changes; the guard is in the display, where `View` renders no now-playing track
and `listHeight` reserves no rows for one while the selection is none. -/
theorem stale_now_playing_is_not_displayed (env : Env) (m : Model) (track : Option Track)
    (hsel : m.selected = -1) :
    Update env m (Msg.nowPlaying track) = some ({ m with nowPlaying := track }, Cmd.none) ∧
    viewNowPlaying { m with nowPlaying := track } = none ∧
    listHeight { m with nowPlaying := track } = listHeight m := by
  refine ⟨rfl, ?_, ?_⟩
  · have hneg : ¬ (m.selected ≥ 0 ∧ track ≠ none) := by
      rw [hsel]
      rintro ⟨h, _⟩
      exact absurd h (by decide)
    unfold viewNowPlaying
    split_ifs <;> rfl
  · have h1 : m.selected < 0 := by rw [hsel]; decide
    simp [listHeight, h1]

/-- C18 amended, on the stopped state: the late track is stored and not displayed. -/
theorem stale_now_playing_is_not_displayed_witness :
    Update exampleEnv stoppedExample (Msg.nowPlaying (some staleTrack)) =
      some ({ stoppedExample with nowPlaying := some staleTrack }, Cmd.none) ∧
    viewNowPlaying { stoppedExample with nowPlaying := some staleTrack } = none ∧
    listHeight { stoppedExample with nowPlaying := some staleTrack } =
      listHeight stoppedExample :=
  stale_now_playing_is_not_displayed exampleEnv stoppedExample (some staleTrack) (by decide)

theorem isFavorite_iff (c : Config) (id : Int) :
    c.IsFavorite id = true ↔ id ∈ c.Favorites := by
  unfold Config.IsFavorite
  rw [List.any_eq_true]
  constructor
  · rintro ⟨x, hx, hxe⟩
    have : x = id := by simpa using hxe
    exact this ▸ hx
  · intro h
    exact ⟨id, h, by simp⟩

theorem removeLoop_eq (id : Int) (l acc : List Int) :
    l.foldl (fun newFavs x => if x ≠ id then newFavs ++ [x] else newFavs) acc =
      acc ++ l.filter (fun x => x ≠ id) := by
  induction l generalizing acc with
  | nil => simp
  | cons x rest ih =>
    rw [List.foldl_cons, ih]
    by_cases hx : x = id <;> simp [hx]

theorem toggleFavorite_favorites (c : Config) (id : Int) :
    (c.ToggleFavorite id).Favorites =
      if c.IsFavorite id = true then c.Favorites.filter (fun x => x ≠ id)
      else c.Favorites ++ [id] := by
  unfold Config.ToggleFavorite
  split_ifs
  · simp only [removeLoop_eq, List.nil_append]
  · rfl

/-- C20: `ToggleFavorite(id)` negates the favorite status of `id` and keeps the status of every
other identifier; an identifier that was not a favorite is appended at the end, and one that
was a favorite is removed with the remaining identifiers kept in their order. -/
theorem toggleFavorite_flips_status (c : Config) (id : Int) :
    (c.ToggleFavorite id).IsFavorite id = !c.IsFavorite id ∧
    (∀ other : Int, other ≠ id →
      (c.ToggleFavorite id).IsFavorite other = c.IsFavorite other) ∧
    (c.IsFavorite id = false → (c.ToggleFavorite id).Favorites = c.Favorites ++ [id]) ∧
    (c.IsFavorite id = true →
      (c.ToggleFavorite id).Favorites = c.Favorites.filter (fun x => x ≠ id) ∧
      (c.ToggleFavorite id).Favorites.Sublist c.Favorites) ∧
    (c.ToggleFavorite id).Volume = c.Volume := by
  have hfav := toggleFavorite_favorites c id
  have hmem : ∀ x : Int, (c.ToggleFavorite id).IsFavorite x = true ↔
      (if c.IsFavorite id = true then x ∈ c.Favorites ∧ x ≠ id
       else x ∈ c.Favorites ∨ x = id) := by
    intro x
    rw [isFavorite_iff, hfav]
    split_ifs <;> simp
  refine ⟨?_, fun other hne => ?_, fun h => ?_, fun h => ?_, ?_⟩
  · cases hc : c.IsFavorite id with
    | true =>
      have := hmem id
      simp only [hc, if_true, ne_eq, not_true_eq_false, and_false] at this
      simpa using this
    | false =>
      have := hmem id
      simp only [hc, Bool.false_eq_true, if_false, or_true, iff_true] at this
      simpa using this
  · cases hc : c.IsFavorite id with
    | true =>
      have := hmem other
      simp only [hc, if_true, ne_eq, hne, not_false_eq_true, and_true] at this
      rw [Bool.eq_iff_iff, this, isFavorite_iff]
    | false =>
      have := hmem other
      simp only [hc, Bool.false_eq_true, if_false, hne, or_false] at this
      rw [Bool.eq_iff_iff, this, isFavorite_iff]
  · rw [hfav]; simp [h]
  · have hf : (c.ToggleFavorite id).Favorites = c.Favorites.filter (fun x => x ≠ id) := by
      rw [hfav, if_pos h]
    exact ⟨hf, hf ▸ List.filter_sublist _⟩
  · unfold Config.ToggleFavorite
    split_ifs <;> rfl

/-- C20 on the configuration of `TestToggleFavorite`: toggling 3 on `[1, 2]` gives `[1, 2, 3]`
and toggling 2 after that gives `[1, 3]`. -/
theorem toggleFavorite_flips_status_witness :
    ((testConfig.ToggleFavorite 3).Favorites = [1, 2, 3] ∧
     ((testConfig.ToggleFavorite 3).ToggleFavorite 2).Favorites = [1, 3]) ∧
    (testConfig.ToggleFavorite 3).IsFavorite 3 = !testConfig.IsFavorite 3 ∧
    (testConfig.IsFavorite 3 = false →
      (testConfig.ToggleFavorite 3).Favorites = testConfig.Favorites ++ [3]) :=
  ⟨by decide, (toggleFavorite_flips_status testConfig 3).1,
   (toggleFavorite_flips_status testConfig 3).2.2.1⟩

theorem slice_some_bounds (s : List Nat) (lo hi : Int) (r : List Nat)
    (h : slice s lo hi = some r) : 0 ≤ lo ∧ lo ≤ hi ∧ hi ≤ len s := by
  unfold slice at h
  split_ifs at h with hc
  exact hc

theorem indexFrom_ge (substr s : List Nat) (i : Int) :
    indexFrom substr s i = -1 ∨ i ≤ indexFrom substr s i := by
  induction s generalizing i with
  | nil =>
    unfold indexFrom
    split_ifs
    · exact Or.inr (le_refl i)
    · exact Or.inl rfl
  | cons b rest ih =>
    unfold indexFrom
    split_ifs
    · exact Or.inr (le_refl i)
    · rcases ih (i + 1) with h | h
      · exact Or.inl h
      · exact Or.inr (by omega)

theorem utf8Char_ne_nil (c : Char) : utf8Char c ≠ [] := by
  unfold utf8Char
  simp only
  split_ifs <;> simp

theorem utf8_ne_nil (s : String) (h : s ≠ "") : utf8 s ≠ [] := by
  obtain ⟨data⟩ := s
  cases data with
  | nil => exact absurd rfl h
  | cons c rest =>
    intro he
    have hc : utf8Char c ++ rest.flatMap utf8Char = [] := he
    exact utf8Char_ne_nil c (List.append_eq_nil.1 hc).1

theorem highlightLoop_ne_outOfFuel (text textLower queryLower : List Nat) (queryLen : Int)
    (hq : 1 ≤ queryLen) (fuel : Nat) (lastEnd : Int) (result : List Piece)
    (h1 : 1 ≤ fuel) (h2 : lastEnd ≤ len textLower → len textLower - lastEnd + 2 ≤ fuel) :
    highlightLoop text textLower queryLower queryLen fuel lastEnd result ≠
      Outcome.outOfFuel := by
  induction fuel generalizing lastEnd result with
  | zero => omega
  | succ fuel ih =>
    unfold highlightLoop
    cases hs : slice textLower lastEnd (len textLower) with
    | none => simp
    | some rest =>
      have hb := slice_some_bounds _ _ _ _ hs
      have hfuel := h2 hb.2.1
      simp only
      split_ifs with hidx
      · cases slice text lastEnd (len text) <;> simp
      · cases slice text lastEnd (lastEnd + Index rest queryLower) with
        | none => simp
        | some before =>
          cases slice text (lastEnd + Index rest queryLower)
              (lastEnd + Index rest queryLower + queryLen) with
          | none => simp
          | some hit =>
            simp only
            have hge : 0 ≤ Index rest queryLower := by
              rcases indexFrom_ge queryLower rest 0 with h | h
              · exact absurd h hidx
              · exact h
            apply ih
            · push_cast at hfuel ⊢
              omega
            · intro _
              push_cast at hfuel ⊢
              omega

/-- The bound on the iterations of `highlightPieces` is never reached. -/
theorem highlightPieces_ne_outOfFuel (env : Env) (text query : String) :
    highlightPieces env text query ≠ Outcome.outOfFuel := by
  unfold highlightPieces
  split_ifs with hq
  · simp
  · have hlen : 1 ≤ len (utf8 query) := by
      have := utf8_ne_nil query hq
      cases hu : utf8 query with
      | nil => exact absurd hu this
      | cons a l => simp [len]
    apply highlightLoop_ne_outOfFuel _ _ _ _ hlen
    · omega
    · intro _
      simp [len]

/-- C19 fails on the code. The offsets are found in the lower-cased text and applied to the
original text, and the span length is the byte length of the original query. In the text
U+0130 "stanbul FM" the first letter has two bytes and its lower case `i` has one, so for the
query "fm" the highlighted span is bytes 9 to 11, " F", and not the occurrence "FM" at bytes
10 to 12. In U+023A " FM" the lower case of the first letter is one byte longer and the span
ends past the text; for the query U+212A (Kelvin sign, three bytes, lower case `k`) the span
in "Rock" is three bytes long and ends past the text: both calls panic. -/
theorem highlightMatch_spans_follow_lowered_offsets :
    highlightPieces goLowerEnv "\u0130stanbul FM" "fm" =
      Outcome.done [Piece.plain (utf8 "\u0130stanbul"), Piece.styled (utf8 " F"),
        Piece.plain (utf8 "M")] ∧
    slice (utf8 "\u0130stanbul FM") 9 11 = some (utf8 " F") ∧
    slice (utf8 "\u0130stanbul FM") 10 12 = some (utf8 "FM") ∧
    highlightPieces goLowerEnv "\u023A FM" "fm" = Outcome.panic ∧
    highlightPieces goLowerEnv "Rock" "\u212A" = Outcome.panic ∧
    highlightMatch goLowerEnv id "Rock" "\u212A" = Outcome.panic := by
  decide

theorem length_filter_ne_add_count (id : Int) (l : List Int) :
    (l.filter (fun x => x ≠ id)).length + l.count id = l.length := by
  induction l with
  | nil => simp
  | cons x rest ih =>
    simp only [ne_eq] at ih
    by_cases hx : x = id
    · subst hx
      simp only [ne_eq, not_true_eq_false, decide_False, Bool.false_eq_true,
        not_false_eq_true, List.filter_cons_of_neg, List.count_cons_self, List.length_cons]
      omega
    · have hne : (x == id) = false := by simpa using hx
      simp only [ne_eq, hx, not_false_eq_true, decide_True, List.filter_cons_of_pos,
        List.length_cons, List.count_cons, hne, Bool.false_eq_true, if_false]
      omega

/-- C21, as stated, fails: on the favorites list `[2, 2]`, where 2 is a favorite,
`ToggleFavorite(2)` removes both entries and the length drops from 2 to 0. -/
theorem toggleFavorite_removes_every_occurrence :
    duplicateConfig.IsFavorite 2 = true ∧ duplicateConfig.Favorites.length = 2 ∧
    (duplicateConfig.ToggleFavorite 2).Favorites.length = 0 := by
  decide

/-- C21, amended: `ToggleFavorite(id)` makes the favorites list one longer when `id` was not a
favorite; when `id` was a favorite it removes every occurrence, so the list gets shorter by
the number of occurrences of `id`, which is exactly one when the list has no duplicates; and
a list without duplicates stays without duplicates. -/
theorem toggleFavorite_length (c : Config) (id : Int) :
    (c.IsFavorite id = false →
      (c.ToggleFavorite id).Favorites.length = c.Favorites.length + 1) ∧
    (c.IsFavorite id = true →
      (c.ToggleFavorite id).Favorites.length + c.Favorites.count id = c.Favorites.length ∧
      (c.ToggleFavorite id).Favorites.length < c.Favorites.length) ∧
    (c.Favorites.Nodup → c.IsFavorite id = true →
      (c.ToggleFavorite id).Favorites.length + 1 = c.Favorites.length) ∧
    (c.Favorites.Nodup → (c.ToggleFavorite id).Favorites.Nodup) := by
  have hfav := toggleFavorite_favorites c id
  refine ⟨fun h => ?_, fun h => ?_, fun hnd h => ?_, fun hnd => ?_⟩
  · rw [hfav]
    simp [h]
  · rw [hfav, if_pos h]
    have hcount := length_filter_ne_add_count id c.Favorites
    have hpos : 0 < c.Favorites.count id :=
      List.count_pos_iff.2 ((isFavorite_iff c id).1 h)
    exact ⟨hcount, by omega⟩
  · rw [hfav, if_pos h]
    have hcount := length_filter_ne_add_count id c.Favorites
    have hone : c.Favorites.count id = 1 :=
      List.count_eq_one_of_mem hnd ((isFavorite_iff c id).1 h)
    omega
  · rw [hfav]
    split_ifs with h
    · exact hnd.filter _
    · have hnot : id ∉ c.Favorites := fun hm => h ((isFavorite_iff c id).2 hm)
      exact List.Nodup.append hnd (List.nodup_singleton id) (by simpa using hnot)

/-- C21 amended, on `TestToggleFavorite`: `[1, 2]` toggled with 3 has length 3, and that
toggled with 2 has length 2. -/
theorem toggleFavorite_length_witness :
    ((testConfig.ToggleFavorite 3).Favorites.length = 3 ∧
     ((testConfig.ToggleFavorite 3).ToggleFavorite 2).Favorites.length = 2) ∧
    (testConfig.ToggleFavorite 3).Favorites.length = testConfig.Favorites.length + 1 ∧
    ((testConfig.ToggleFavorite 3).ToggleFavorite 2).Favorites.length + 1 =
      (testConfig.ToggleFavorite 3).Favorites.length :=
  ⟨by decide, (toggleFavorite_length testConfig 3).1 (by decide),
   (toggleFavorite_length (testConfig.ToggleFavorite 3) 2).2.2.1 (by decide) (by decide)⟩

/-- C22: in help mode every key, `q` and `ctrl+c` included, gives the same state with the
mode set to normal and issues no command. -/
theorem help_overlay_swallows_key (env : Env) (m : Model) (k : String)
    (hmode : m.mode = Mode.modeHelp) :
    Update env m (Msg.key k) = some ({ m with mode := Mode.modeNormal }, Cmd.none) := by
  simp [Update, hmode]

/-- C22 on a help overlay over a search with a playing station: `q` only closes the
overlay. -/
theorem help_overlay_swallows_key_witness :
    Update exampleEnv helpExample (Msg.key "q") =
      some ({ helpExample with mode := Mode.modeNormal }, Cmd.none) ∧
    Update exampleEnv helpExample (Msg.key "ctrl+c") =
      some ({ helpExample with mode := Mode.modeNormal }, Cmd.none) :=
  ⟨help_overlay_swallows_key exampleEnv helpExample "q" (by decide),
   help_overlay_swallows_key exampleEnv helpExample "ctrl+c" (by decide)⟩

theorem doSearch_some_frame (env : Env) (m m' : Model) (h : doSearch env m = some m') :
    ∃ f k c, m' = { m with filtered := f, matchIndex := k, cursor := c } := by
  unfold doSearch at h
  simp only at h
  by_cases hq : m.searchQuery = ""
  · rw [if_pos hq] at h
    exact ⟨[], m.matchIndex, m.cursor, (Option.some.inj h).symm⟩
  · rw [if_neg hq] at h
    cases hs : searchLoop env m.stations (env.toLower m.searchQuery) m.visibleList [] with
    | none => simp [hs] at h
    | some filtered =>
      simp only [hs] at h
      by_cases hl : len filtered > 0
      · rw [if_pos hl] at h
        cases hk : seekLoop filtered 0 m.visibleList 0 with
        | none => simp [hk] at h
        | some r =>
          simp only [hk, Option.map_some', Option.some.injEq] at h
          cases r with
          | none => exact ⟨filtered, 0, m.cursor, h.symm⟩
          | some c => exact ⟨filtered, 0, c, h.symm⟩
      · rw [if_neg hl] at h
        exact ⟨filtered, m.matchIndex, m.cursor, (Option.some.inj h).symm⟩

theorem updateSearchKey_some_frame (env : Env) (m m' : Model) (k : String)
    (h : updateSearchKey env m k = some m') :
    ∃ md q f i c, m' = { m with mode := md, searchQuery := q, filtered := f, matchIndex := i,
                                cursor := c } := by
  unfold updateSearchKey at h
  by_cases h1 : k = "enter"
  · rw [if_pos h1] at h
    exact ⟨Mode.modeNormal, "", m.filtered, m.matchIndex, m.cursor, (Option.some.inj h).symm⟩
  rw [if_neg h1] at h
  by_cases h2 : k = "esc"
  · rw [if_pos h2] at h
    exact ⟨Mode.modeNormal, "", [], 0, m.cursor, (Option.some.inj h).symm⟩
  rw [if_neg h2] at h
  by_cases h3 : k = "backspace"
  · rw [if_pos h3] at h
    by_cases hq : m.searchQuery ≠ ""
    · rw [if_pos hq] at h
      obtain ⟨f, i, c, hm⟩ := doSearch_some_frame env _ m' h
      exact ⟨m.mode, String.mk m.searchQuery.data.dropLast, f, i, c, hm⟩
    · rw [if_neg hq] at h
      exact ⟨m.mode, m.searchQuery, m.filtered, m.matchIndex, m.cursor,
        (Option.some.inj h).symm⟩
  rw [if_neg h3] at h
  by_cases h4 : k.length = 1
  · rw [if_pos h4] at h
    obtain ⟨f, i, c, hm⟩ := doSearch_some_frame env _ m' h
    exact ⟨m.mode, m.searchQuery ++ k, f, i, c, hm⟩
  · rw [if_neg h4] at h
    exact ⟨m.mode, m.searchQuery, m.filtered, m.matchIndex, m.cursor,
      (Option.some.inj h).symm⟩

theorem updateSearchKey_total (env : Env) (m : Model) (k : String)
    (hvis : ∀ idx ∈ m.visibleList, 0 ≤ idx ∧ idx < len m.stations) :
    ∃ m', updateSearchKey env m k = some m' := by
  unfold updateSearchKey
  split_ifs
  · exact ⟨_, rfl⟩
  · exact ⟨_, rfl⟩
  · obtain ⟨f, i, c, h⟩ :=
      doSearch_frame env { m with searchQuery := String.mk m.searchQuery.data.dropLast } hvis
    exact ⟨_, h⟩
  · exact ⟨_, rfl⟩
  · obtain ⟨f, i, c, h⟩ := doSearch_frame env { m with searchQuery := m.searchQuery ++ k } hvis
    exact ⟨_, h⟩
  · exact ⟨_, rfl⟩

/-- C23: in search mode no key quits, plays or stops: whenever `Update` returns, the command
is nil and the tab selector, the favorites-only flag, the favorites, the selection, the
player with its volume, the visible list, the catalog, the tab list and the now-playing track
are unchanged; and it does return when the visible list holds station indices. -/
theorem search_mode_keys_only_edit_search (env : Env) (m : Model) (k : String)
    (hmode : m.mode = Mode.modeSearch) :
    (∀ m' c, Update env m (Msg.key k) = some (m', c) →
      c = Cmd.none ∧ m'.currentGenre = m.currentGenre ∧
      m'.showFavorites = m.showFavorites ∧ m'.config = m.config ∧
      m'.selected = m.selected ∧ m'.player = m.player ∧ m'.visibleList = m.visibleList ∧
      m'.stations = m.stations ∧ m'.allGenres = m.allGenres ∧
      m'.nowPlaying = m.nowPlaying) ∧
    ((∀ idx ∈ m.visibleList, 0 ≤ idx ∧ idx < len m.stations) →
      ∃ m', Update env m (Msg.key k) = some (m', Cmd.none)) := by
  constructor
  · intro m' c h
    rw [Update_search env m k hmode] at h
    cases hu : updateSearchKey env m k with
    | none => simp [hu] at h
    | some m1 =>
      simp only [hu, Option.map_some', Option.some.injEq, Prod.mk.injEq] at h
      obtain ⟨md, q, f, i, cur, hm⟩ := updateSearchKey_some_frame env m m1 k hu
      obtain ⟨h1, h2⟩ := h
      subst h1
      subst hm
      exact ⟨h2.symm, rfl, rfl, rfl, rfl, rfl, rfl, rfl, rfl, rfl⟩
  · intro hvis
    obtain ⟨m', h⟩ := updateSearchKey_total env m k hvis
    exact ⟨m', by rw [Update_search env m k hmode, h]; rfl⟩

/-- C23 on a search over a genre tab with station 2 playing: the keys `q`, `f`, `s`, `0` and
`1` are appended to the query; nothing quits, flips a favorite, stops or resets. -/
theorem search_mode_keys_only_edit_search_witness :
    (run searchModeExample (keyEvents (exampleKeys ["q", "f", "s", "0", "1"]))).map
      (fun m => (m.searchQuery, m.mode, m.selected, m.config.Favorites, m.player.volume,
        m.visibleList)) =
      some ("qfs01", Mode.modeSearch, 2, [2], 80, [1, 0, 2]) ∧
    (∀ m' c, Update exampleEnv searchModeExample (Msg.key "q") = some (m', c) →
      c = Cmd.none ∧ m'.currentGenre = searchModeExample.currentGenre ∧
      m'.showFavorites = searchModeExample.showFavorites ∧
      m'.config = searchModeExample.config ∧
      m'.selected = searchModeExample.selected ∧ m'.player = searchModeExample.player ∧
      m'.visibleList = searchModeExample.visibleList ∧
      m'.stations = searchModeExample.stations ∧
      m'.allGenres = searchModeExample.allGenres ∧
      m'.nowPlaying = searchModeExample.nowPlaying) ∧
    ∃ m', Update exampleEnv searchModeExample (Msg.key "q") = some (m', Cmd.none) :=
  ⟨by decide,
   (search_mode_keys_only_edit_search exampleEnv searchModeExample "q" (by decide)).1,
   (search_mode_keys_only_edit_search exampleEnv searchModeExample "q" (by decide)).2
     (by decide)⟩

theorem keyUp_eq (m : Model) (h0 : 0 ≤ m.cursor) :
    keyUp m = { m with cursor := max (m.cursor - 1) 0 } := by
  unfold keyUp
  split_ifs with hc
  · rw [max_eq_left (by omega)]
  · have hz : max (m.cursor - 1) 0 = m.cursor := by
      rw [max_eq_right (by omega)]
      omega
    rw [hz]

theorem keyDown_eq (m : Model) (h0 : 0 ≤ m.cursor)
    (hc : m.cursor < len m.visibleList ∨ (m.visibleList = [] ∧ m.cursor = 0)) :
    keyDown m = { m with cursor :=
      (if m.visibleList = [] then m.cursor else min (m.cursor + 1) (len m.visibleList - 1)) } := by
  unfold keyDown
  by_cases he : m.visibleList = []
  · have hlen : len m.visibleList = 0 := by rw [he]; rfl
    have hcur : m.cursor = 0 := by
      rcases hc with h | h
      · omega
      · exact h.2
    have hn : ¬ m.cursor < len m.visibleList - 1 := by omega
    rw [if_neg hn, if_pos he]
  · rw [if_neg he]
    have hlt : m.cursor < len m.visibleList := by
      rcases hc with h | h
      · exact h
      · exact absurd h.1 he
    split_ifs with hd
    · rw [min_eq_left (by omega)]
    · have hz : min (m.cursor + 1) (len m.visibleList - 1) = m.cursor := by
        rw [min_eq_right (by omega)]
        omega
      rw [hz]

theorem keyBottom_eq (m : Model) :
    keyBottom m = { m with cursor :=
      (if len m.visibleList > 0 then len m.visibleList - 1 else m.cursor) } := by
  unfold keyBottom
  split_ifs <;> rfl

theorem getStationAtCursor_in_range (m : Model)
    (h : 0 ≤ m.cursor ∧ m.cursor < len m.visibleList) :
    index m.visibleList m.cursor = some (getStationAtCursor m) := by
  obtain ⟨x, hx⟩ := index_of_lt m.visibleList m.cursor h.1 h.2
  unfold getStationAtCursor
  have hc : m.cursor ≥ 0 ∧ m.cursor < len m.visibleList := h
  rw [if_pos hc]
  simp only [hx]

theorem getStationAtCursor_empty (m : Model) (h : m.visibleList = []) :
    getStationAtCursor m = -1 := by
  unfold getStationAtCursor
  have hlen : len m.visibleList = 0 := by rw [h]; rfl
  have hc : ¬ (m.cursor ≥ 0 ∧ m.cursor < len m.visibleList) := by omega
  rw [if_neg hc]

/-- C24: in normal mode with the cursor `c` on a row of the visible list of length `n` (or at
0 when it is empty), `up`/`k` gives `max(c - 1, 0)`, `down`/`j` gives `min(c + 1, n - 1)`
when `n > 0` and keeps the cursor when `n = 0`, `g` gives 0, `G` gives `n - 1` when `n > 0`
and keeps the cursor when `n = 0`; only the cursor changes, so the selection stays; and
`getStationAtCursor` is `visibleList[c]` for `0 <= c < n` and -1 on an empty list. -/
theorem navigation_is_clamped (env : Env) (m : Model) (hmode : m.mode = Mode.modeNormal)
    (hc : 0 ≤ m.cursor ∧
      (m.cursor < len m.visibleList ∨ (m.visibleList = [] ∧ m.cursor = 0))) :
    (∀ k ∈ ["up", "k"],
      Update env m (Msg.key k) =
        some ({ m with cursor := max (m.cursor - 1) 0 }, Cmd.none)) ∧
    (∀ k ∈ ["down", "j"],
      Update env m (Msg.key k) =
        some ({ m with cursor :=
                  (if m.visibleList = [] then m.cursor
                   else min (m.cursor + 1) (len m.visibleList - 1)) }, Cmd.none)) ∧
    Update env m (Msg.key "g") = some ({ m with cursor := 0 }, Cmd.none) ∧
    Update env m (Msg.key "G") =
      some ({ m with cursor :=
                (if len m.visibleList > 0 then len m.visibleList - 1 else m.cursor) },
            Cmd.none) ∧
    (m.cursor < len m.visibleList →
      index m.visibleList m.cursor = some (getStationAtCursor m)) ∧
    (m.visibleList = [] → getStationAtCursor m = -1) := by
  refine ⟨fun k hk => ?_, fun k hk => ?_, ?_, ?_, fun h => ?_, fun h => ?_⟩
  · rw [Update_normal env m k hmode, ← keyUp_eq m hc.1]
    simp only [List.mem_cons, List.mem_singleton, List.not_mem_nil, or_false] at hk
    rcases hk with rfl | rfl <;> rfl
  · rw [Update_normal env m k hmode, ← keyDown_eq m hc.1 hc.2]
    simp only [List.mem_cons, List.mem_singleton, List.not_mem_nil, or_false] at hk
    rcases hk with rfl | rfl <;> rfl
  · rw [Update_normal env m "g" hmode]
    rfl
  · rw [Update_normal env m "G" hmode, ← keyBottom_eq m]
    rfl
  · exact getStationAtCursor_in_range m ⟨hc.1, h⟩
  · exact getStationAtCursor_empty m h

/-- C24 on three rows with the cursor on the last: `down` stays on row 2, `up` goes to row 1,
`g` to row 0, `G` to row 2, the selection stays 1, and the station at the cursor is
`visibleList[2] = 2`. -/
theorem navigation_is_clamped_witness :
    ((run navigationExample (keyEvents (exampleKeys ["down"]))).map
        (fun m => (m.cursor, m.selected)) = some (2, 1) ∧
     (run navigationExample (keyEvents (exampleKeys ["up"]))).map
        (fun m => (m.cursor, m.selected)) = some (1, 1) ∧
     (run navigationExample (keyEvents (exampleKeys ["g", "k"]))).map
        (fun m => (m.cursor, m.selected)) = some (0, 1) ∧
     getStationAtCursor navigationExample = 2) ∧
    (∀ k ∈ ["up", "k"],
      Update exampleEnv navigationExample (Msg.key k) =
        some ({ navigationExample with cursor := max (navigationExample.cursor - 1) 0 },
              Cmd.none)) ∧
    Update exampleEnv navigationExample (Msg.key "G") =
      some ({ navigationExample with cursor :=
                (if len navigationExample.visibleList > 0
                 then len navigationExample.visibleList - 1 else navigationExample.cursor) },
            Cmd.none) :=
  ⟨by decide,
   (navigation_is_clamped exampleEnv navigationExample (by decide) (by decide)).1,
   (navigation_is_clamped exampleEnv navigationExample (by decide) (by decide)).2.2.2.1⟩

theorem doSearch_empty_visible (env : Env) (m : Model) (hvis : m.visibleList = []) :
    doSearch env m = some { m with filtered := [] } := by
  by_cases hq : m.searchQuery = ""
  · exact doSearch_empty_query env m hq
  · simp [doSearch, hq, hvis, searchLoop, len]

theorem seekLoop_nil (filtered : List Int) (k i : Int) :
    seekLoop filtered k [] i = some none := rfl

theorem nextMatch_empty_visible (m : Model) (hvis : m.visibleList = []) :
    ∃ k, nextMatch m = some { m with matchIndex := k } ∧
      (m.filtered = [] → k = m.matchIndex) := by
  unfold nextMatch
  by_cases hl : len m.filtered = 0
  · rw [if_pos hl]
    exact ⟨m.matchIndex, rfl, fun _ => rfl⟩
  · rw [if_neg hl]
    simp only [hvis, seekLoop_nil, Option.map_some', setCursor]
    exact ⟨_, rfl, fun he => absurd (by rw [he]; rfl) hl⟩

theorem prevMatch_empty_visible (m : Model) (hvis : m.visibleList = []) :
    ∃ k, prevMatch m = some { m with matchIndex := k } ∧
      (m.filtered = [] → k = m.matchIndex) := by
  unfold prevMatch
  by_cases hl : len m.filtered = 0
  · rw [if_pos hl]
    exact ⟨m.matchIndex, rfl, fun _ => rfl⟩
  · rw [if_neg hl]
    simp only
    split_ifs
    · simp only [hvis, seekLoop_nil, Option.map_some', setCursor]
      exact ⟨_, rfl, fun he => absurd (by rw [he]; rfl) hl⟩
    · simp only [hvis, seekLoop_nil, Option.map_some', setCursor]
      exact ⟨_, rfl, fun he => absurd (by rw [he]; rfl) hl⟩

theorem normal_key_on_empty_list (env : Env) (m : Model) (k : String)
    (hvis : m.visibleList = []) (hcur : m.cursor = 0) (hk : k ∈ emptyListKeys) :
    ∃ i, updateNormalKey env m k = some ({ m with matchIndex := i }, Cmd.none) ∧
      (m.filtered = [] → i = m.matchIndex) := by
  have hlen : len m.visibleList = 0 := by rw [hvis]; rfl
  have hstation : getStationAtCursor m = -1 := getStationAtCursor_empty m hvis
  have hup : keyUp m = m := by
    unfold keyUp
    rw [if_neg (by omega)]
  have hdown : keyDown m = m := by
    unfold keyDown
    rw [if_neg (by omega)]
  have htop : ({ m with cursor := 0 } : Model) = m := by
    have : ({ m with cursor := 0 } : Model) = { m with cursor := m.cursor } := by rw [hcur]
    exact this
  have hbottom : keyBottom m = m := by
    unfold keyBottom
    rw [if_neg (by omega)]
  have hplay : keyPlay env m = (m, Cmd.none) := by
    unfold keyPlay
    simp only [hstation]
    rfl
  have hfav : keyToggleFavorite m = some m := by
    unfold keyToggleFavorite
    simp only [hstation]
    rfl
  simp only [emptyListKeys, List.mem_cons, List.mem_singleton, List.not_mem_nil,
    or_false] at hk
  rcases hk with rfl | rfl | rfl | rfl | rfl | rfl | rfl | rfl | rfl | rfl | rfl
  · exact ⟨m.matchIndex,
      (show updateNormalKey env m "up" = some (keyUp m, Cmd.none) from rfl).trans
        (by rw [hup]), fun _ => rfl⟩
  · exact ⟨m.matchIndex,
      (show updateNormalKey env m "k" = some (keyUp m, Cmd.none) from rfl).trans
        (by rw [hup]), fun _ => rfl⟩
  · exact ⟨m.matchIndex,
      (show updateNormalKey env m "down" = some (keyDown m, Cmd.none) from rfl).trans
        (by rw [hdown]), fun _ => rfl⟩
  · exact ⟨m.matchIndex,
      (show updateNormalKey env m "j" = some (keyDown m, Cmd.none) from rfl).trans
        (by rw [hdown]), fun _ => rfl⟩
  · exact ⟨m.matchIndex,
      (show updateNormalKey env m "g" = some ({ m with cursor := 0 }, Cmd.none) from rfl).trans
        (by rw [htop]), fun _ => rfl⟩
  · exact ⟨m.matchIndex,
      (show updateNormalKey env m "G" = some (keyBottom m, Cmd.none) from rfl).trans
        (by rw [hbottom]), fun _ => rfl⟩
  · exact ⟨m.matchIndex,
      (show updateNormalKey env m "enter" = some (keyPlay env m) from rfl).trans
        (by rw [hplay]), fun _ => rfl⟩
  · exact ⟨m.matchIndex,
      (show updateNormalKey env m " " = some (keyPlay env m) from rfl).trans
        (by rw [hplay]), fun _ => rfl⟩
  · exact ⟨m.matchIndex,
      (show updateNormalKey env m "f" =
          (keyToggleFavorite m).map (fun m => (m, Cmd.none)) from rfl).trans
        (by rw [hfav]; rfl), fun _ => rfl⟩
  · obtain ⟨i, hi, hi2⟩ := nextMatch_empty_visible m hvis
    exact ⟨i, (show updateNormalKey env m "n" =
        (nextMatch m).map (fun m => (m, Cmd.none)) from rfl).trans (by rw [hi]; rfl), hi2⟩
  · obtain ⟨i, hi, hi2⟩ := prevMatch_empty_visible m hvis
    exact ⟨i, (show updateNormalKey env m "N" =
        (prevMatch m).map (fun m => (m, Cmd.none)) from rfl).trans (by rw [hi]; rfl), hi2⟩

/-- What holds on every state with an empty visible list and the cursor at 0: the navigation
keys, play, toggle favorite and match cycling never fail, issue no command and keep cursor,
visible list, match list and selection; they change nothing at all when the match list is
empty too. Typing a character or backspace in search mode never fails either, keeps cursor,
visible list and selection, and leaves an empty match list empty. A match list that is not
empty is not emptied by the normal-mode keys. -/
theorem empty_list_operations_are_noops (env : Env) (m : Model) (hvis : m.visibleList = [])
    (hcur : m.cursor = 0) :
    (m.mode = Mode.modeNormal → m.filtered = [] →
      ∀ k ∈ emptyListKeys, Update env m (Msg.key k) = some (m, Cmd.none)) ∧
    (m.mode = Mode.modeNormal →
      ∀ k ∈ emptyListKeys,
        ∃ m', Update env m (Msg.key k) = some (m', Cmd.none) ∧ m'.cursor = 0 ∧
          m'.visibleList = [] ∧ m'.filtered = m.filtered ∧ m'.selected = m.selected) ∧
    (m.mode = Mode.modeSearch →
      ∀ k : String, k.length = 1 ∨ k = "backspace" →
        ∃ m', Update env m (Msg.key k) = some (m', Cmd.none) ∧ m'.cursor = 0 ∧
          m'.visibleList = [] ∧ m'.selected = m.selected ∧
          (m.filtered = [] → m'.filtered = [])) := by
  refine ⟨fun hn hf k hk => ?_, fun hn k hk => ?_, fun hs k hk => ?_⟩
  · obtain ⟨i, h1, h2⟩ := normal_key_on_empty_list env m k hvis hcur hk
    rw [Update_normal env m k hn, h1, h2 hf]
  · obtain ⟨i, h1, _⟩ := normal_key_on_empty_list env m k hvis hcur hk
    exact ⟨{ m with matchIndex := i }, by rw [Update_normal env m k hn, h1], hcur, hvis, rfl,
      rfl⟩
  · rw [Update_search env m k hs]
    rcases hk with hk | rfl
    · rw [updateSearchKey_char env m k hk,
        doSearch_empty_visible env { m with searchQuery := m.searchQuery ++ k } hvis]
      exact ⟨_, rfl, hcur, hvis, rfl, fun _ => rfl⟩
    · by_cases hq : m.searchQuery ≠ ""
      · rw [updateSearchKey_backspace env m hq,
          doSearch_empty_visible env
            { m with searchQuery := String.mk m.searchQuery.data.dropLast } hvis]
        exact ⟨_, rfl, hcur, hvis, rfl, fun _ => rfl⟩
      · have hb : updateSearchKey env m "backspace" = some m := by
          have h1 : ("backspace" : String) ≠ "enter" := by decide
          have h2 : ("backspace" : String) ≠ "esc" := by decide
          unfold updateSearchKey
          rw [if_neg h1, if_neg h2, if_pos rfl, if_neg hq]
        rw [hb]
        exact ⟨m, rfl, hcur, hvis, rfl, fun h => h⟩

/-- After an empty catalog is loaded, and with the favorites-only flag set on a state that
has no favorites and no search: the visible list is empty, and navigation, play, toggle
favorite, match cycling and a search for "a" with a backspace leave cursor 0, no matches and
no selection. -/
theorem empty_list_operations_are_noops_witness :
    ((run startExample [(exampleEnv, Msg.stationsLoaded [] none)]).map
        (fun m => (m.visibleList, m.allGenres)) = some ([], []) ∧
     (run startExample ((exampleEnv, Msg.stationsLoaded [] none) ::
        keyEvents (exampleKeys
          ["up", "down", "g", "G", "enter", "f", "n", "N", "/", "a", "backspace"]))).map
        (fun m => (m.visibleList, m.cursor, m.filtered, m.selected)) =
        some ([], 0, [], -1) ∧
     (run startExample ((exampleEnv, Msg.stationsLoaded rockStations none) ::
        keyEvents (exampleKeys ["F", "j", "G", "enter", "f", "n"]))).map
        (fun m => (m.visibleList, m.cursor, m.filtered, m.selected)) =
        some ([], 0, [], -1)) ∧
    (∀ k ∈ emptyListKeys,
      Update exampleEnv emptyCatalogExample (Msg.key k) =
        some (emptyCatalogExample, Cmd.none)) :=
  ⟨by decide,
   (empty_list_operations_are_noops exampleEnv emptyCatalogExample (by decide)
      (by decide)).1 (by decide) (by decide)⟩

theorem setVolume_volume (p : Player) (v : Int) :
    (p.SetVolume v).Volume = min 100 (max 0 v) := by
  unfold Player.SetVolume Player.Volume
  simp only
  split_ifs <;> omega

theorem applyVolumeOp_bounds (p : Player) (op : VolumeOp) :
    0 ≤ (applyVolumeOp p op).Volume ∧ (applyVolumeOp p op).Volume ≤ 100 := by
  cases op with
  | set vol =>
    show 0 ≤ (p.SetVolume vol).Volume ∧ (p.SetVolume vol).Volume ≤ 100
    rw [setVolume_volume]
    omega
  | up =>
    show 0 ≤ (p.SetVolume (p.Volume + 5)).Volume ∧ (p.SetVolume (p.Volume + 5)).Volume ≤ 100
    rw [setVolume_volume]
    omega
  | down =>
    show 0 ≤ (p.SetVolume (p.Volume - 5)).Volume ∧ (p.SetVolume (p.Volume - 5)).Volume ≤ 100
    rw [setVolume_volume]
    omega

theorem foldl_applyVolumeOp_bounds (ops : List VolumeOp) (p : Player)
    (hp : 0 ≤ p.Volume ∧ p.Volume ≤ 100) :
    0 ≤ (ops.foldl applyVolumeOp p).Volume ∧ (ops.foldl applyVolumeOp p).Volume ≤ 100 := by
  induction ops generalizing p with
  | nil => exact hp
  | cons op rest ih => exact ih (applyVolumeOp p op) (applyVolumeOp_bounds p op)

/-- C26: after `SetVolume(v)` the volume is `min(100, max(0, v))` for every integer `v`, and
from `New()`, whose volume is 80, every sequence of `SetVolume`, `VolumeUp` and `VolumeDown`
calls leaves the volume within 0 to 100. -/
theorem volume_is_clamped :
    (∀ (p : Player) (v : Int), (p.SetVolume v).Volume = min 100 (max 0 v)) ∧
    Player.New.Volume = 80 ∧
    (∀ p : Player, p.VolumeUp = p.SetVolume (p.Volume + 5) ∧
      p.VolumeDown = p.SetVolume (p.Volume - 5)) ∧
    (∀ ops : List VolumeOp,
      0 ≤ (ops.foldl applyVolumeOp Player.New).Volume ∧
      (ops.foldl applyVolumeOp Player.New).Volume ≤ 100) :=
  ⟨setVolume_volume, rfl, fun _ => ⟨rfl, rfl⟩,
   fun ops => foldl_applyVolumeOp_bounds ops Player.New ⟨by decide, by decide⟩⟩

/-- C26 on concrete requests: 150 and -20 are clamped to 100 and 0, and five `VolumeUp`
calls from 80 stop at 100. -/
theorem volume_is_clamped_witness :
    ((Player.New.SetVolume 150).Volume = 100 ∧ (Player.New.SetVolume (-20)).Volume = 0 ∧
     ([VolumeOp.up, VolumeOp.up, VolumeOp.up, VolumeOp.up, VolumeOp.up].foldl applyVolumeOp
        Player.New).Volume = 100) ∧
    (Player.New.SetVolume 150).Volume = min 100 (max 0 150) ∧
    0 ≤ ([VolumeOp.set (-20), VolumeOp.down].foldl applyVolumeOp Player.New).Volume :=
  ⟨by decide, volume_is_clamped.1 Player.New 150,
   (volume_is_clamped.2.2.2 [VolumeOp.set (-20), VolumeOp.down]).1⟩

theorem mem_genreNamesInOrder (stations : List Station) (name : String) :
    name ∈ genreNamesInOrder stations ↔
      ∃ s ∈ stations, ∃ g ∈ s.Genres, g.Name = name := by
  simp [genreNamesInOrder]

theorem extractGenres_nodup (env : Env) (m : Model) :
    (extractGenres env m).allGenres.Nodup := by
  rw [extractGenres_allGenres]
  exact (env.mapOrder_perm _).nodup_iff.2 (keepFirst_nodup _)

theorem mem_extractGenres (env : Env) (m : Model) (name : String) :
    name ∈ (extractGenres env m).allGenres ↔
      ∃ s ∈ m.stations, ∃ g ∈ s.Genres, g.Name = name := by
  rw [extractGenres_allGenres, (env.mapOrder_perm _).mem_iff, firstSeenNames, mem_keepFirst,
    mem_genreNamesInOrder]

/-- C27: after `extractGenres` a name is a tab exactly when some station has a genre of that
name, whatever the genre identifiers are, and every tab occurs once; an empty catalog gives
an empty tab list and, after `updateVisibleList`, an empty visible list. -/
theorem genre_tabs_are_distinct_names (env : Env) (m : Model) :
    (∀ name, name ∈ (extractGenres env m).allGenres ↔
      ∃ s ∈ m.stations, ∃ g ∈ s.Genres, g.Name = name) ∧
    (extractGenres env m).allGenres.Nodup ∧
    (∀ name ∈ (extractGenres env m).allGenres,
      (extractGenres env m).allGenres.count name = 1) ∧
    (m.stations = [] →
      (extractGenres env m).allGenres = [] ∧
      (updateVisibleList (extractGenres env m)).visibleList = []) := by
  refine ⟨mem_extractGenres env m, extractGenres_nodup env m,
    fun name h => List.count_eq_one_of_mem (extractGenres_nodup env m) h, fun he => ?_⟩
  have hnil : (extractGenres env m).allGenres = [] := by
    apply List.eq_nil_iff_forall_not_mem.2
    intro name hn
    obtain ⟨s, hs, _⟩ := (mem_extractGenres env m name).1 hn
    rw [he] at hs
    exact absurd hs (List.not_mem_nil s)
  refine ⟨hnil, ?_⟩
  have hst : (extractGenres env m).stations = [] := he
  apply List.eq_nil_iff_forall_not_mem.2
  intro idx hidx
  have := updateVisibleList_valid (extractGenres env m) idx hidx
  rw [hst] at this
  simp [len] at this
  omega

/-- C27 on a catalog where "House" comes with the identifiers 10 and 20: the tabs are
"House" and "Techno", each once; and loading an empty catalog gives no tabs and no rows. -/
theorem genre_tabs_are_distinct_names_witness :
    ((extractGenres exampleEnv sameNameExample).allGenres = ["House", "Techno"] ∧
     (extractGenres reversedOrderEnv sameNameExample).allGenres = ["Techno", "House"] ∧
     (run startExample [(exampleEnv, Msg.stationsLoaded [] none)]).map
        (fun m => (m.allGenres, m.visibleList)) = some ([], [])) ∧
    (extractGenres exampleEnv sameNameExample).allGenres.Nodup ∧
    ((extractGenres exampleEnv startExample).allGenres = [] ∧
      (updateVisibleList (extractGenres exampleEnv startExample)).visibleList = []) :=
  ⟨by decide, (genre_tabs_are_distinct_names exampleEnv sameNameExample).2.1,
   (genre_tabs_are_distinct_names exampleEnv startExample).2.2.2 rfl⟩

/-- C28 fails on the code, by the defect of C19: the offsets come from the lower-cased text
and the span length from the original query. With the title U+023A " FM" (5 bytes, 6 when
lower-cased) and the query "fm", the match is found at offset 4 and `text[4:6]` is out of
range; with the title "Taxi" and the typed query U+0130 (2 bytes, lower case `i`) the span
`text[3:5]` is out of range. In both cases the station is a match, so `View` makes the call
and panics. The loop itself always terminates. -/
theorem highlightMatch_slice_out_of_range :
    (∀ (env : Env) (text query : String),
      highlightPieces env text query ≠ Outcome.outOfFuel) ∧
    (len (utf8 "\u023A FM") = 5 ∧ len (utf8 (goLowerEnv.toLower "\u023A FM")) = 6 ∧
     Index (utf8 (goLowerEnv.toLower "\u023A FM")) (utf8 (goLowerEnv.toLower "fm")) = 4 ∧
     slice (utf8 "\u023A FM") 4 6 = none ∧
     highlightMatch goLowerEnv id "\u023A FM" "fm" = Outcome.panic) ∧
    (run startExample
        [(goLowerEnv, Msg.stationsLoaded [strokeStation] none), (goLowerEnv, Msg.key "/"),
         (goLowerEnv, Msg.key "f"), (goLowerEnv, Msg.key "m")]).map
      (fun m => (m.searchQuery, m.filtered, viewTitle goLowerEnv id m strokeStation 0)) =
      some ("fm", [0], Outcome.panic) ∧
    (run startExample
        [(goLowerEnv, Msg.stationsLoaded [taxiStation] none), (goLowerEnv, Msg.key "/"),
         (goLowerEnv, Msg.key "\u0130")]).map
      (fun m => (m.searchQuery, m.filtered, viewTitle goLowerEnv id m taxiStation 0)) =
      some ("\u0130", [0], Outcome.panic) :=
  ⟨highlightPieces_ne_outOfFuel, by decide, by decide, by decide⟩

/-- C25 fails on the code, by the defect of C6. With the favorites-only flag set, a search
for "r" is committed with `enter`, which keeps the match list `[0, 2]`; `f` pressed twice
then removes both favorites and rebuilds the visible list without clearing the matches. The
visible list is empty, the match list is not, and `n` and `N` are not no-ops: each moves the
match pointer from 0 to 1. No key fails, and cursor and selection are kept. -/
theorem match_cycling_acts_on_empty_visible_list :
    (run startWithTwoFavorites ((exampleEnv, Msg.stationsLoaded rockStations none) ::
        keyEvents (exampleKeys ["F", "/", "r", "enter", "f", "f"]))).map
      (fun m => (m.showFavorites, m.config.Favorites, m.visibleList)) =
      some (true, [], []) ∧
    (run startWithTwoFavorites ((exampleEnv, Msg.stationsLoaded rockStations none) ::
        keyEvents (exampleKeys ["F", "/", "r", "enter", "f", "f"]))).map
      (fun m => (m.visibleList, m.cursor, m.filtered, m.matchIndex, m.selected)) =
      some ([], 0, [0, 2], 0, -1) ∧
    (run startWithTwoFavorites ((exampleEnv, Msg.stationsLoaded rockStations none) ::
        keyEvents (exampleKeys ["F", "/", "r", "enter", "f", "f", "n"]))).map
      (fun m => (m.visibleList, m.cursor, m.filtered, m.matchIndex, m.selected)) =
      some ([], 0, [0, 2], 1, -1) ∧
    (run startWithTwoFavorites ((exampleEnv, Msg.stationsLoaded rockStations none) ::
        keyEvents (exampleKeys ["F", "/", "r", "enter", "f", "f", "N"]))).map
      (fun m => (m.visibleList, m.cursor, m.filtered, m.matchIndex, m.selected)) =
      some ([], 0, [0, 2], 1, -1) ∧
    (run startWithTwoFavorites ((exampleEnv, Msg.stationsLoaded rockStations none) ::
        keyEvents (exampleKeys ["F", "/", "r", "enter", "f", "f", "j", "G", "enter"]))).map
      (fun m => (m.visibleList, m.cursor, m.filtered, m.matchIndex, m.selected)) =
      some ([], 0, [0, 2], 0, -1) :=
  ⟨by decide, by decide, by decide, by decide, by decide⟩

end RadioRecord
